import Mathlib

/-!
Verification development for the Wookiee Unicaster UDP relay
(`wookiee_unicaster.py`).  The definitions below are a shallow embedding of
the program's workers: UDP payloads are byte lists, sockets and queues are
explicit lists, the cross-process events (link / remote-peer / exit) are
booleans, and each worker's loop body is an executable Lean function or a
step relation mirroring the Python control flow line by line.
-/

/-- A UDP application payload: an opaque byte sequence. -/
abbrev Payload := List Nat

/-- A peer address `(ip, port)`; the IPv4 address is its 32-bit integer
value (`struct.unpack('!L', socket.inet_aton(ip))[0]`). -/
abbrev Addr := Nat × Nat

/-- `RemotePeerHandler.KEEP_ALIVE_PACKET = b'-=|-WU-KEEP-ALIVE-|=-'`. -/
def KEEP_ALIVE_PACKET : Payload := "-=|-WU-KEEP-ALIVE-|=-".data.map Char.toNat

/-- `RemotePeerHandler.KEEP_ALIVE_HALT_PACKET = b'-=|-WU-HALT-KEEP-ALIVE-|=-'`. -/
def KEEP_ALIVE_HALT_PACKET : Payload := "-=|-WU-HALT-KEEP-ALIVE-|=-".data.map Char.toNat

/-- `RemotePeerHandler.DEFAULT_TIMEOUT = 2` (seconds). -/
def DEFAULT_TIMEOUT : Nat := 2

/-- `PORTS_RANGE = (1024, 65535)`. -/
def PORTS_RANGE : Nat × Nat := (1024, 65535)

/-- `SERVER_RELAY_BASE_PORT_DEFAULT = 23000`. -/
def SERVER_RELAY_BASE_PORT_DEFAULT : Nat := 23000

/-- `CLIENT_RELAY_BASE_PORT_DEFAULT = 23100`. -/
def CLIENT_RELAY_BASE_PORT_DEFAULT : Nat := 23100

/-! ### Receive worker (`RemotePeerHandler.wookiee_receive_worker`)

The worker's mode is the byte string `wookiee_mode`: bit 0 distinguishes
client (`b'0'`) from server (`b'1'`), bit 1 source from destination; the
third bit is always `0` (receive) for this worker. -/

/-- The two mode bits a receive worker looks at: `wookiee_mode[0]`
(client = `false` / server = `true`) and `wookiee_mode[1]`
(source = `false` / destination = `true`). -/
structure RecvMode where
  server : Bool
  destination : Bool
deriving DecidableEq, Repr

/-- Worker-visible state of `wookiee_receive_worker`: the two datagram
queues it may produce into, the Main Supervisor's reset queue, the slot's
exit flag and the process-wide counters. -/
structure RecvState where
  sourceQueue : List Payload
  destQueue : List Payload
  resetQueue : List Nat
  exitEvent : Bool
  sourcePacketCount : Nat
  maxPacketSize : Nat
deriving DecidableEq, Repr

/-- Body of the main receive loop of `wookiee_receive_worker` for one
received datagram `idata` (lines 554-590): if the payload differs from
`KEEP_ALIVE_PACKET` it is appended unmodified to the source queue
(`*-source-receive`, with counter updates; the max-packet counter is only
updated in `client-source-receive`) or to the destination queue
(`*-destination-receive`); a `KEEP_ALIVE_PACKET` payload is instead treated
as an anomaly: the slot number is put on the reset queue and the exit flag
is set. -/
def wookiee_receive_packet (mode : RecvMode) (peer : Nat) (st : RecvState)
    (idata : Payload) : RecvState :=
  if idata ≠ KEEP_ALIVE_PACKET then
    -- '*-source-receive' (wookiee_mode[1:] == b'00')
    if mode.destination = false then
      { st with
        sourceQueue := st.sourceQueue ++ [idata]
        sourcePacketCount := st.sourcePacketCount + 1
        -- 'client-source-receive' (wookiee_mode == b'000') updates max_packet_size
        maxPacketSize :=
          if mode.server = false ∧ idata.length > st.maxPacketSize then
            idata.length
          else st.maxPacketSize }
    else
      { st with destQueue := st.destQueue ++ [idata] }
  else
    { st with resetQueue := st.resetQueue ++ [peer], exitEvent := true }

/-- Handler of `socket.timeout` in `wookiee_receive_worker` (lines
592-599): on `*-destination-receive` with the exit flag still clear the
slot number is put on the reset queue and the exit flag is set; otherwise
(in particular on every `*-source-receive` timeout) the state is untouched
and the loop continues. -/
def wookiee_receive_timeout (mode : RecvMode) (peer : Nat) (st : RecvState) :
    RecvState :=
  if mode.destination = true ∧ st.exitEvent = false then
    { st with resetQueue := st.resetQueue ++ [peer], exitEvent := true }
  else st

/-! ### The per-(slot, direction) datagram pipeline

One datagram channel between a receive worker (producer) and a relay
worker (consumer), together with the slot's link flag, across the whole
life of the slot — resets included.  `PipeStep` is parametrised by which
of the two workers waits on the link flag: `rw = true` models the
`link_event.wait()` at lines 541-543 of `wookiee_receive_worker` (the
producer of a destination channel; the respawned worker waits again after
every reset, so each of its enqueues happens with the current
incarnation's flag set), and `sw = true` models the `link_event.wait()`
at line 685 of `wookiee_relay_worker` (mode `b'111'`,
`server-destination-relay`; the wait is *inside* the send loop, so it
guards every single dequeue).  Mode `b'011'` (`client-destination-relay`)
has `sw = false`: that worker never looks at the link flag.  `oaddr` is
the relay worker's fixed target address. -/

/-- Shared state of one (slot, direction) channel: the slot's link flag,
the FIFO contents, the full sequence of payloads enqueued by the receive
side, and the sequence of datagrams transmitted by the relay side.
`everLinked` is a history variable recording whether the link flag has
ever been set since process start; nothing in the program clears it. -/
structure PipeState where
  link : Bool
  everLinked : Bool
  queue : List Payload
  enqueued : List Payload
  sent : List (Payload × Addr)
deriving DecidableEq, Repr

/-- One scheduler step of the pipeline:
`setLink` is the source-side worker completing the keep-alive handshake
(`link_event.set()`); `reset` is `wookiee_peer_handler_start` respawning
the slot's workers after a reset (lines 405-469, driven by the Main
Supervisor loop at lines 1085-1093): it clears the link flag but does
*not* drain the `multiprocessing.Queue`s, so any backlog survives into
the next incarnation; `enqueue` is the receive worker appending a
received payload to the channel (`source_queue.put(idata)` /
`destination_queue.put(idata)`), allowed only under a set link flag when
the receive worker waits on it; `dequeueSend` is the relay worker's
`odata = ..._queue.get(...)` followed by `osocket.sendto(odata, oaddr)` —
the dequeued payload is transmitted unmodified, with no framing added,
and only `sw = true` workers require the link flag for it. -/
inductive PipeStep (rw sw : Bool) (oaddr : Addr) : PipeState → PipeState → Prop
  | setLink (s : PipeState) :
      PipeStep rw sw oaddr s { s with link := true, everLinked := true }
  | reset (s : PipeState) :
      PipeStep rw sw oaddr s { s with link := false }
  | enqueue (s : PipeState) (p : Payload) (hg : rw = true → s.link = true) :
      PipeStep rw sw oaddr s
        { s with queue := s.queue ++ [p], enqueued := s.enqueued ++ [p] }
  | dequeueSend (s : PipeState) (p : Payload) (rest : List Payload)
      (hq : s.queue = p :: rest) (hg : sw = true → s.link = true) :
      PipeStep rw sw oaddr s
        { s with queue := rest, sent := s.sent ++ [(p, oaddr)] }

/-- States of one channel reachable over the slot's whole life.  The
initial state is process start: the `multiprocessing.Queue`s are created
empty exactly once (lines 1040-1041) and the link flag starts clear;
later incarnations are reached through `PipeStep.reset`, which preserves
the queue contents. -/
inductive PipeReach (rw sw : Bool) (oaddr : Addr) : PipeState → Prop
  | init : PipeReach rw sw oaddr ⟨false, false, [], [], []⟩
  | step {s t : PipeState} :
      PipeReach rw sw oaddr s → PipeStep rw sw oaddr s t → PipeReach rw sw oaddr t

/-! ### Server-side keep-alive (`wookiee_relay_worker`, mode `b'101'`) -/

/-- The unhandled Python exception a worker can die with. -/
inductive PyErr where
  | nameError
deriving DecidableEq, Repr

/-- One iteration's inputs of the server keep-alive loop (lines 649-672):
the received datagram `(kadata, kaaddr)` and the value `rpAfterRecv` of the
remote-peer event at the `if not remote_peer_event.is_set():` check that
follows the reception.  The event is monotone during one incarnation (only
the admission worker sets it), so `rpAfterRecv = true` makes the loop exit
at its next guard check. -/
structure KAIter where
  kadata : Payload
  kaaddr : Addr
  rpAfterRecv : Bool
deriving DecidableEq, Repr, Inhabited

/-- Result of a completed server keep-alive phase: the tunnel target
`oaddr = kaaddr` (line 675), whether `peer_connection_received` ever became
true (a `KEEP_ALIVE_PACKET` was observed), the datagrams transmitted during
the handshake, and the link flag (`link_event.set()`, line 678). -/
structure KAOutcome where
  target : Addr
  confirmed : Bool
  sends : List (Payload × Addr)
  linkSet : Bool
deriving DecidableEq, Repr

/-- The server keep-alive loop over the iteration inputs `iters`, carrying
the last bound value of `kaaddr`, `peer_connection_received` and the sends
so far.  An empty remainder with no bound `kaaddr` is the loop exiting
(exit flag) before any reception: the subsequent `oaddr = kaaddr` raises
`NameError`.  Otherwise the loop ends either by `rpAfterRecv` (the halt
branch transmitted `KEEP_ALIVE_HALT_PACKET`) or by exhausting `iters`
(exit flag), and `oaddr = kaaddr` then fixes the last sender as target and
the link flag is set. -/
def serverKAGo : List KAIter → Option Addr → Bool → List (Payload × Addr) →
    Except PyErr KAOutcome
  | [], none, _, _ => .error .nameError
  | [], some a, conf, sends => .ok ⟨a, conf, sends, true⟩
  | it :: rest, _, conf, sends =>
    let conf' := conf || decide (it.kadata = KEEP_ALIVE_PACKET)
    let sends' := sends ++
      [((if it.rpAfterRecv then KEEP_ALIVE_HALT_PACKET else KEEP_ALIVE_PACKET),
        it.kaaddr)]
    if it.rpAfterRecv then .ok ⟨it.kaaddr, conf', sends', true⟩
    else serverKAGo rest (some it.kaaddr) conf' sends'

/-- The whole server keep-alive phase (lines 643-679).  `rpAtEntry` is the
remote-peer event at the `if not remote_peer_event.is_set():` guard of line
645: when it is already set the entire block — including the loop that
binds `kaaddr` — is skipped, and the unconditional `oaddr = kaaddr` of line
675 reads a never-bound local, raising an unhandled `NameError` (only
`SystemExit` is caught), so `link_event.set()` at line 678 is never
reached. -/
def wookiee_relay_keep_alive (rpAtEntry : Bool) (iters : List KAIter) :
    Except PyErr KAOutcome :=
  if rpAtEntry then .error .nameError
  else serverKAGo iters none false []

/-! ### Server admission worker (`ServerHandler.wookiee_server_worker`)

The worker owns `remote_peer_queue_dict` (a dict from the received
`iaddr` to a queue index) and `queue_vacancy`, and writes the reverse
mapping into `remote_peer_addr_array` / `remote_peer_port_array`.  Those
two start as the names of the shared `multiprocessing.Array`s, but the
purge at lines 269-270 executes `remote_peer_addr_array = [0] * peers`,
which rebinds the worker-local *name* to a fresh ordinary list: the shared
arrays themselves are left untouched from then on.  The state therefore
keeps both the worker's current view (`viewAddr`/`viewPort`) and the true
shared arrays (`sharedAddr`/`sharedPort`), linked while `viewIsShared`. -/

/-- State touched by `wookiee_server_worker`. -/
structure SrvState where
  dict : List (Addr × Nat)
  vacancy : List Bool
  viewAddr : List Nat
  viewPort : List Nat
  viewIsShared : Bool
  sharedAddr : List Nat
  sharedPort : List Nat
  events : List Bool
  queues : List (List Payload)
  packetCount : Nat
  maxPacket : Nat
deriving DecidableEq, Repr

/-- `remote_peer_queue_dict.get(iaddr, None)`. -/
def dictGet (d : List (Addr × Nat)) (a : Addr) : Option Nat :=
  (d.find? (fun p => decide (p.1 = a))).map (·.2)

/-- Write `(a, p)` through the worker's array view
(`remote_peer_addr_array[i] = ...` / `remote_peer_port_array[i] = ...`);
while the view still is the shared memory the write lands there too. -/
def setView (st : SrvState) (i : Nat) (a p : Nat) : SrvState :=
  let st1 := { st with
    viewAddr := st.viewAddr.set i a, viewPort := st.viewPort.set i p }
  if st1.viewIsShared then
    { st1 with
      sharedAddr := st1.sharedAddr.set i a, sharedPort := st1.sharedPort.set i p }
  else st1

/-- `source_queue_list[queue_index].put(idata)` followed by the counter
updates of lines 251-254 (the queue-full branch only logs; the put itself
blocks rather than drops, so the model appends unconditionally). -/
def enqueuePacket (st : SrvState) (qi : Nat) (idata : Payload) : SrvState :=
  { st with
    queues := st.queues.set qi (st.queues.getD qi [] ++ [idata])
    packetCount := st.packetCount + 1
    maxPacket := if idata.length > st.maxPacket then idata.length else st.maxPacket }

/-- One pass of the vacating loop body (lines 213-227) for slot `i`: a slot
whose remote-peer event is clear is vacated.  `vaddr` is rebuilt from the
array view; the guard `if vaddr != (0, 0):` of line 219 compares a
`(str, int)` tuple against `(0, 0)` and a `str` never equals an `int` in
Python, so the guard is always true and is elided here.  If `vaddr` is a
key of the dict, the entry is deleted, the view entries zeroed and the slot
marked vacant; a `KeyError` (line 226) leaves the slot untouched. -/
def vacateOne (st : SrvState) (i : Nat) : SrvState :=
  if st.events.getD i false = false then
    let vaddr : Addr := (st.viewAddr.getD i 0, st.viewPort.getD i 0)
    if ∃ p ∈ st.dict, p.1 = vaddr then
      let st1 := { st with dict := st.dict.filter (fun p => decide (p.1 ≠ vaddr)) }
      let st2 := setView st1 i 0 0
      { st2 with vacancy := st2.vacancy.set i true }
    else st
  else st

/-- The vacating loop `for vacate_queue_index in range(peers): ...`. -/
def vacateSlots : List Nat → SrvState → SrvState
  | [], st => st
  | i :: rest, st => vacateSlots rest (vacateOne st i)

/-- Lines 211-227: the vacating scan runs only when no slot is vacant
(`if True not in queue_vacancy:`). -/
def admissionScan (peers : Nat) (st : SrvState) : SrvState :=
  if st.vacancy.contains true then st else vacateSlots (List.range peers) st

/-- `queue_vacancy.index(True)` (line 230): the lowest index holding
`True`, with `none` standing for the `ValueError` raised when there is no
vacancy. -/
def firstTrueIdx : List Bool → Option Nat
  | [] => none
  | b :: rest => if b then some 0 else (firstTrueIdx rest).map (· + 1)

/-- Body of `wookiee_server_worker` for one received datagram
`(idata, iaddr)` (lines 205-261).  A known peer only has its remote-peer
event re-set before the payload is enqueued; a new address triggers the
vacating scan when full, then `queue_vacancy.index(True)` picks the lowest
vacant slot (its `ValueError` when none is vacant is caught at line 259 and
the datagram is dropped), the forward mapping is inserted, the reverse
entries written, the slot marked occupied and its remote-peer event set,
and the payload is enqueued.  No payload is ever filtered: keep-alive byte
strings arriving here are enqueued like any other datagram. -/
def wookiee_server_worker_packet (peers : Nat) (st : SrvState)
    (idata : Payload) (iaddr : Addr) : SrvState :=
  match dictGet st.dict iaddr with
  | some qi =>
    let st1 := { st with events := st.events.set qi true }
    enqueuePacket st1 qi idata
  | none =>
    let st1 := admissionScan peers st
    match firstTrueIdx st1.vacancy with
    | none => st1
    | some qi =>
      let st2 := { st1 with dict := st1.dict ++ [(iaddr, qi)] }
      let st3 := setView st2 qi iaddr.1 iaddr.2
      let st4 := { st3 with
        vacancy := st3.vacancy.set qi false
        events := st3.events.set qi true }
      enqueuePacket st4 qi idata

/-- The `socket.timeout` branch of `wookiee_server_worker` (lines
263-271): with a non-empty peer dict the peer list is purged.  The dict is
cleared and vacancy restored, but `remote_peer_addr_array = [0] * peers`
and `remote_peer_port_array = [0] * peers` rebind the worker-local names to
fresh lists — the shared arrays keep their old contents. -/
def wookiee_server_worker_timeout (peers : Nat) (st : SrvState) : SrvState :=
  if st.dict.isEmpty then st
  else
    { st with
      dict := []
      viewAddr := List.replicate peers 0
      viewPort := List.replicate peers 0
      viewIsShared := false
      vacancy := List.replicate peers true }

/-- Events driving the admission worker: a received datagram, a receive
timeout, and the external clearing of a slot's remote-peer event
(performed by `wookiee_peer_handler_start` on a handler (re)start). -/
inductive SrvEvent where
  | recv (idata : Payload) (iaddr : Addr)
  | timeout
  | clearEvent (i : Nat)

/-- An environment event is admissible when a received datagram's source
address is a real UDP source (never `0.0.0.0:0`). -/
def srvEventOK : SrvEvent → Prop
  | .recv _ iaddr => iaddr ≠ (0, 0)
  | _ => True

/-- One admission-worker step. -/
def srvStep (peers : Nat) (st : SrvState) : SrvEvent → SrvState
  | .recv idata iaddr => wookiee_server_worker_packet peers st idata iaddr
  | .timeout => wookiee_server_worker_timeout peers st
  | .clearEvent i => { st with events := st.events.set i false }

/-- Initial admission-worker state: empty dict, all slots vacant, zeroed
shared arrays (still aliased by the worker's view), clear events, empty
queues. -/
def srvInit (peers : Nat) : SrvState :=
  { dict := []
    vacancy := List.replicate peers true
    viewAddr := List.replicate peers 0
    viewPort := List.replicate peers 0
    viewIsShared := true
    sharedAddr := List.replicate peers 0
    sharedPort := List.replicate peers 0
    events := List.replicate peers false
    queues := List.replicate peers []
    packetCount := 0
    maxPacket := 0 }

/-- Admission-worker states reachable from startup under admissible
environment events. -/
inductive SrvReach (peers : Nat) : SrvState → Prop
  | init : SrvReach peers (srvInit peers)
  | step {st : SrvState} (e : SrvEvent) :
      SrvReach peers st → srvEventOK e → SrvReach peers (srvStep peers st e)

/-- Consistency invariant of the admission state: the bookkeeping lists
have length `peers`; dict keys are distinct; every dict entry points to an
occupied slot whose array view holds exactly that entry's address and is a
real address; every occupied slot is mapped by some entry; and vacant
slots have zeroed view entries. -/
def SrvInv (peers : Nat) (st : SrvState) : Prop :=
  st.vacancy.length = peers ∧ st.viewAddr.length = peers ∧
  st.viewPort.length = peers ∧ st.events.length = peers ∧
  st.queues.length = peers ∧
  (st.dict.map Prod.fst).Nodup ∧
  (∀ p ∈ st.dict, p.2 < peers ∧ st.vacancy.getD p.2 true = false ∧
    st.viewAddr.getD p.2 0 = p.1.1 ∧ st.viewPort.getD p.2 0 = p.1.2 ∧
    p.1 ≠ (0, 0)) ∧
  (∀ i, i < peers → st.vacancy.getD i true = false → ∃ p ∈ st.dict, p.2 = i) ∧
  (∀ i, i < peers → st.vacancy.getD i true = true →
    st.viewAddr.getD i 0 = 0 ∧ st.viewPort.getD i 0 = 0)

instance (peers : Nat) (st : SrvState) : Decidable (SrvInv peers st) := by
  unfold SrvInv; infer_instance

/-! ### Startup input validation (`__main__`, lines 864-1011)

The embedding covers the explicit-local-IP path (`args.interface is None`,
or a non-Linux host); the Linux interface-name branch (exit 6) resolves an
IP with a subprocess and is outside the claims' scope.  `ipaddress.ip_address`
is modelled for IPv4 dotted quads (it would also accept IPv6 text; the
program's documented use is IPv4). -/

/-- Command-line arguments after `argparse`: optional flags are `none`
when absent; `peers` and the two base ports carry their string defaults. -/
structure Args where
  mode : Option String
  localip : Option String
  peers : String
  sourceip : Option String
  destip : Option String
  iport : Option String
  oport : Option String
  serverRelayBasePort : String
  clientRelayBasePort : String
deriving DecidableEq, Repr

/-- Decimal value of a digit sequence. -/
def charsToNat (cs : List Char) : Nat :=
  cs.foldl (fun a c => a * 10 + (c.toNat - 48)) 0

/-- Parse a non-empty all-digit character sequence. -/
def charsToNat? (cs : List Char) : Option Nat :=
  if cs ≠ [] ∧ cs.all Char.isDigit then some (charsToNat cs) else none

/-- Model of Python `int(...)` on a string: an optional minus sign
followed by at least one digit. -/
def strToInt? (s : String) : Option Int :=
  match s.data with
  | '-' :: rest => (charsToNat? rest).map (fun n => -(n : Int))
  | ds => (charsToNat? ds).map (fun n => (n : Int))

/-- Split a character sequence on `'.'`. -/
def splitDot : List Char → List (List Char)
  | [] => [[]]
  | c :: rest =>
    match splitDot rest with
    | [] => [[]]
    | g :: gs => if c = '.' then [] :: g :: gs else (c :: g) :: gs

/-- One dotted-quad octet: 1-3 digits, no leading zero, value ≤ 255. -/
def isIPv4Octet (cs : List Char) : Bool :=
  0 < cs.length && cs.length ≤ 3 && cs.all Char.isDigit &&
  (cs.length = 1 || (cs.headD '0') ≠ '0') && charsToNat cs ≤ 255

/-- Model of `ipaddress.ip_address` accepting an IPv4 dotted quad. -/
def isValidIPv4 (s : String) : Bool :=
  let parts := splitDot s.data
  parts.length = 4 && parts.all isIPv4Octet

deriving instance DecidableEq for Except

/-- The validated configuration produced by a successful startup. -/
structure StartupConfig where
  isServer : Bool
  localIp : String
  peers : Int
  sourceIp : Option String
  destIp : Option String
  serverRelayBase : Int
  clientRelayBase : Int
  sourcePort : Int
  destinationPort : Int
deriving DecidableEq, Repr

/-- Lines 865-883: role selection and the role's required flags
(`SystemExit` 1-5). -/
def validateMode (args : Args) : Except Nat Bool :=
  if args.mode = some "client" then
    if args.sourceip = none then Except.error 3
    else if args.destip = none then Except.error 4
    else if args.oport = none then Except.error 5
    else Except.ok false
  else if args.mode = some "server" then
    if args.iport = none then Except.error 2
    else Except.ok true
  else Except.error 1

/-- Lines 907-920: explicit local IP, required and well-formed
(`SystemExit` 7 for both failures). -/
def validateLocalIp (args : Args) : Except Nat String :=
  match args.localip with
  | none => Except.error 7
  | some s => if isValidIPv4 s then Except.ok s else Except.error 7

/-- Lines 924-935: `peers = int(args.peers)`, at least 1 (`SystemExit` 8
for a non-numeric value and for `peers < 1` alike). -/
def validatePeers (args : Args) : Except Nat Int :=
  match strToInt? args.peers with
  | none => Except.error 8
  | some n => if n < 1 then Except.error 8 else Except.ok n

/-- Lines 937-949: the source IP is only validated on the client
(`SystemExit` 9). -/
def validateSourceIp (isServer : Bool) (args : Args) :
    Except Nat (Option String) :=
  if isServer then Except.ok none
  else
    match args.sourceip with
    | some s => if isValidIPv4 s then Except.ok (some s) else Except.error 9
    | none => Except.error 9   -- presence already enforced by exit 3

/-- Lines 951-963: the destination IP is only validated on the client
(`SystemExit` 10). -/
def validateDestIp (isServer : Bool) (args : Args) :
    Except Nat (Option String) :=
  if isServer then Except.ok none
  else
    match args.destip with
    | some s => if isValidIPv4 s then Except.ok (some s) else Except.error 10
    | none => Except.error 10  -- presence already enforced by exit 4

/-- Lines 965-987: either relay base port must satisfy
`PORTS_RANGE[0] ≤ port ≤ PORTS_RANGE[1] - peers` (`SystemExit` 11 for the
server base, 12 for the client base, shared with the `int()`
`ValueError`). -/
def validateBasePort (code : Nat) (s : String) (peers : Int) : Except Nat Int :=
  match strToInt? s with
  | none => Except.error code
  | some n =>
    if n < (PORTS_RANGE.1 : Int) ∨ n > (PORTS_RANGE.2 : Int) - peers then
      Except.error code
    else Except.ok n

/-- Lines 989-999: the source port — `int(args.iport)` on the server, the
already-validated server relay base on the client — must lie in
`PORTS_RANGE` (`SystemExit` 13). -/
def validateSourcePort (isServer : Bool) (args : Args)
    (serverRelayBase : Int) : Except Nat Int :=
  if isServer then
    match strToInt? (args.iport.getD "") with
    | none => Except.error 13
    | some n =>
      if n < (PORTS_RANGE.1 : Int) ∨ n > (PORTS_RANGE.2 : Int) then
        Except.error 13
      else Except.ok n
  else
    if serverRelayBase < (PORTS_RANGE.1 : Int) ∨
        serverRelayBase > (PORTS_RANGE.2 : Int) then Except.error 13
    else Except.ok serverRelayBase

/-- Lines 1001-1011: the destination port — the client relay base on the
server, `int(args.oport)` on the client — must lie in `PORTS_RANGE`
(`SystemExit` 14). -/
def validateDestinationPort (isServer : Bool) (args : Args)
    (clientRelayBase : Int) : Except Nat Int :=
  if isServer then
    if clientRelayBase < (PORTS_RANGE.1 : Int) ∨
        clientRelayBase > (PORTS_RANGE.2 : Int) then Except.error 14
    else Except.ok clientRelayBase
  else
    match strToInt? (args.oport.getD "") with
    | none => Except.error 14
    | some n =>
      if n < (PORTS_RANGE.1 : Int) ∨ n > (PORTS_RANGE.2 : Int) then
        Except.error 14
      else Except.ok n

/-- The startup validation chain of `__main__` (lines 864-1011), with each
`raise SystemExit(n)` embedded as `Except.error n`:
mode (1-5), local IP (7), peers (8), source IP (9), destination IP (10),
server relay base port (11), client relay base port (12), source port
(13), destination port (14).  `int(...)` is modelled by `strToInt?`
(its `ValueError` shares the exit code of the range check, as in the
source); the Linux interface-name branch (exit 6) is out of scope. -/
def validateStartup (args : Args) : Except Nat StartupConfig := do
  let isServer ← validateMode args
  let localIp ← validateLocalIp args
  let peers ← validatePeers args
  let sourceIp ← validateSourceIp isServer args
  let destIp ← validateDestIp isServer args
  let serverRelayBase ← validateBasePort 11 args.serverRelayBasePort peers
  let clientRelayBase ← validateBasePort 12 args.clientRelayBasePort peers
  let sourcePort ← validateSourcePort isServer args serverRelayBase
  let destinationPort ← validateDestinationPort isServer args clientRelayBase
  Except.ok
    { isServer, localIp, peers, sourceIp, destIp,
      serverRelayBase, clientRelayBase, sourcePort, destinationPort }

/-- The exit codes of the validation chain modelled by `validateStartup`. -/
def startupErrorCodes : List Nat := [1, 2, 3, 4, 5, 7, 8, 9, 10, 11, 12, 13, 14]

/-- Acceptance criteria the code actually enforces (the amended claim's
notion of a valid configuration): valid role with its required flags,
well-formed local IP, `peers ≥ 1`, client-mode source/destination IPs
well-formed, both relay base ports in `[1024, 65535 - peers]`, and the
role's explicit port (`-i` on the server, `-o` on the client) numeric and
in `[1024, 65535]`. -/
def acceptableArgs (args : Args) : Bool :=
  (match strToInt? args.peers with
   | none => false
   | some peers =>
     1 ≤ peers &&
     (match args.localip with
      | none => false
      | some l => isValidIPv4 l) &&
     (match strToInt? args.serverRelayBasePort with
      | none => false
      | some n => 1024 ≤ n && n ≤ 65535 - peers) &&
     (match strToInt? args.clientRelayBasePort with
      | none => false
      | some n => 1024 ≤ n && n ≤ 65535 - peers) &&
     (if args.mode = some "server" then
        match args.iport with
        | none => false
        | some ip =>
          match strToInt? ip with
          | none => false
          | some n => 1024 ≤ n && n ≤ 65535
      else if args.mode = some "client" then
        (match args.sourceip with
         | none => false
         | some s => isValidIPv4 s) &&
        (match args.destip with
         | none => false
         | some s => isValidIPv4 s) &&
        (match args.oport with
         | none => false
         | some op =>
           match strToInt? op with
           | none => false
           | some n => 1024 ≤ n && n ≤ 65535)
      else false))

/-- Definition following the words of claim C9 (not the source): a
configuration is "valid" when the role is present and valid, every flag
the role requires is supplied, every supplied IP address is well-formed,
every supplied port (including the relay base ports) lies in
`[1024, 65535]`, and the peer count is at least 1. -/
def claimValidArgs (args : Args) : Bool :=
  (match strToInt? args.peers with
   | none => false
   | some peers =>
     1 ≤ peers &&
     (match args.localip with
      | none => false
      | some l => isValidIPv4 l) &&
     (match strToInt? args.serverRelayBasePort with
      | none => false
      | some n => 1024 ≤ n && n ≤ 65535) &&
     (match strToInt? args.clientRelayBasePort with
      | none => false
      | some n => 1024 ≤ n && n ≤ 65535) &&
     (match args.sourceip with
      | none => true
      | some s => isValidIPv4 s) &&
     (match args.destip with
      | none => true
      | some s => isValidIPv4 s) &&
     (match args.iport with
      | none => true
      | some ip =>
        match strToInt? ip with
        | none => false
        | some n => 1024 ≤ n && n ≤ 65535) &&
     (match args.oport with
      | none => true
      | some op =>
        match strToInt? op with
        | none => false
        | some n => 1024 ≤ n && n ≤ 65535) &&
     (if args.mode = some "server" then args.iport ≠ none
      else if args.mode = some "client" then
        args.sourceip ≠ none && args.destip ≠ none && args.oport ≠ none
      else false))

/-! ### Concrete states and inputs used by witnesses and counterexamples -/

/-- A receive worker's state with empty queues and a clear exit flag. -/
def emptyRecvState : RecvState :=
  { sourceQueue := [], destQueue := [], resetQueue := [], exitEvent := false
    sourcePacketCount := 0, maxPacketSize := 0 }

/-- A server keep-alive iteration receiving the two-byte application
payload `b'AB'` (not a keep-alive) from `1.2.3.4:7777` with the
remote-peer event already set by the admission worker. -/
def c3CexIter : KAIter := ⟨[65, 66], (16909060, 7777), true⟩

/-- Admission state after the single peer `1.2.3.4:5555` sent one datagram
to a one-slot server. -/
def c7Admitted : SrvState := srvStep 1 (srvInit 1) (.recv [65] (16909060, 5555))

/-- The state of `c7Admitted` after a `SERVER_PEER_CONNECTION_TIMEOUT`
purge. -/
def c7Purged : SrvState := srvStep 1 c7Admitted .timeout

/-- Server arguments whose server relay base port 65535 lies inside
`[1024, 65535]` but above `65535 - peers`. -/
def c9EdgeArgs : Args :=
  { mode := some "server", localip := some "10.0.0.1", peers := "1"
    sourceip := none, destip := none, iport := some "27015", oport := none
    serverRelayBasePort := "65535", clientRelayBasePort := "23100" }

/-- A server configuration accepted by the validation chain. -/
def c9GoodArgs : Args :=
  { mode := some "server", localip := some "10.0.0.1", peers := "1"
    sourceip := none, destip := none, iport := some "27015", oport := none
    serverRelayBasePort := "23000", clientRelayBasePort := "23100" }

/-- Arguments with no role given. -/
def c9BadArgs : Args :=
  { mode := none, localip := some "10.0.0.1", peers := "1"
    sourceip := none, destip := none, iport := none, oport := none
    serverRelayBasePort := "23000", clientRelayBasePort := "23100" }

/-- A fully occupied two-slot admission state satisfying `SrvInv`, slot 0's
remote-peer event cleared (a dropped peer), slot 1's still set. -/
def c6State : SrvState :=
  { dict := [((10, 1), 0), ((20, 2), 1)]
    vacancy := [false, false]
    viewAddr := [10, 20], viewPort := [1, 2]
    viewIsShared := true
    sharedAddr := [10, 20], sharedPort := [1, 2]
    events := [false, true]
    queues := [[], []]
    packetCount := 2, maxPacket := 1 }

/-- A two-slot admission state satisfying `SrvInv` with slot 1 vacant. -/
def c5State : SrvState :=
  { dict := [((10, 1), 0)]
    vacancy := [false, true]
    viewAddr := [10, 0], viewPort := [1, 0]
    viewIsShared := true
    sharedAddr := [10, 0], sharedPort := [1, 0]
    events := [true, false]
    queues := [[], []]
    packetCount := 1, maxPacket := 1 }

/-- The source address of the last handshake reception, when one exists. -/
def lastSender : List KAIter → Option Addr
  | [] => none
  | [it] => some it.kaaddr
  | _ :: rest => lastSender rest

/-- A server keep-alive iteration receiving a genuine `KEEP_ALIVE_PACKET`
from `(5, 6)` with the remote-peer event set. -/
def c3WitIter : KAIter := ⟨KEEP_ALIVE_PACKET, (5, 6), true⟩

/-- Pipeline state after enqueuing and relaying the payload `[7]` on an
unguarded source channel. -/
def c1State : PipeState :=
  { link := false, everLinked := false, queue := [], enqueued := [[7]]
    sent := [([7], (1, 2))] }

/-- Pipeline state after the link was set and `[7]` was enqueued and
relayed on a destination channel. -/
def c4State : PipeState :=
  { link := true, everLinked := true, queue := [], enqueued := [[7]]
    sent := [([7], (1, 2))] }

/-- Pipeline state of a client destination channel after a reset: `[7]`
was enqueued under the first incarnation's link flag, the handler was
reset (link flag cleared, queue not drained), and the respawned
`client-destination-relay` — which never waits on the link flag —
transmitted the leftover payload before the new handshake completed. -/
def c4CexState : PipeState :=
  { link := false, everLinked := true, queue := [], enqueued := [[7]]
    sent := [([7], (1, 2))] }

/-!
## Theorems

Helper lemmas come first, then for every claim its theorem, with witnesses
and counterexamples next to it.
-/

theorem getD_set_self {α : Type} (l : List α) (i : Nat) (x d : α)
    (h : i < l.length) : (l.set i x).getD i d = x := by
  induction l generalizing i with
  | nil => simp at h
  | cons a t ih =>
    cases i with
    | zero => rfl
    | succ j => exact ih j (Nat.lt_of_succ_lt_succ h)

theorem getD_set_ne {α : Type} (l : List α) (i j : Nat) (x d : α)
    (h : i ≠ j) : (l.set i x).getD j d = l.getD j d := by
  induction l generalizing i j with
  | nil => rfl
  | cons a t ih =>
    cases i with
    | zero =>
      cases j with
      | zero => exact absurd rfl h
      | succ k => rfl
    | succ m =>
      cases j with
      | zero => rfl
      | succ k => exact ih m k (fun e => h (by rw [e]))

theorem getD_replicate_self {α : Type} (n i : Nat) (x d : α) (h : i < n) :
    (List.replicate n x).getD i d = x := by
  induction n generalizing i with
  | zero => simp at h
  | succ m ih =>
    cases i with
    | zero => rfl
    | succ j => exact ih j (Nat.lt_of_succ_lt_succ h)

theorem getD_default_irrel {α : Type} (l : List α) (i : Nat) (d d' : α)
    (h : i < l.length) : l.getD i d = l.getD i d' := by
  induction l generalizing i with
  | nil => simp at h
  | cons a t ih =>
    cases i with
    | zero => rfl
    | succ j => exact ih j (Nat.lt_of_succ_lt_succ h)

/-- C1.  For every (slot, direction) channel, in every reachable state
over the channel's whole lifetime — resets included — the sequence of
payloads transmitted by the relay worker, followed by the payloads still
in the bounded FIFO, is exactly the sequence of payloads enqueued by the
receive side: transmitted payloads are an unmodified, unreordered initial
segment of the enqueued ones, each sent with no framing to the single
target address `oaddr`. -/
theorem pipe_fifo_transparency (rw sw : Bool) (oaddr : Addr) (s : PipeState)
    (h : PipeReach rw sw oaddr s) :
    s.sent.map Prod.fst ++ s.queue = s.enqueued ∧ ∀ x ∈ s.sent, x.2 = oaddr := by
  induction h with
  | init => simp
  | step hst hr ih =>
    rename_i s' t'
    cases hr with
    | setLink => exact ih
    | reset => exact ih
    | enqueue p hg =>
      refine ⟨?_, ih.2⟩
      show s'.sent.map Prod.fst ++ (s'.queue ++ [p]) = s'.enqueued ++ [p]
      rw [← List.append_assoc, ih.1]
    | dequeueSend p rest hq hg =>
      constructor
      · show (s'.sent ++ [(p, oaddr)]).map Prod.fst ++ rest = s'.enqueued
        rw [List.map_append, List.append_assoc]
        have h1 : s'.sent.map Prod.fst ++ s'.queue = s'.enqueued := ih.1
        rw [hq] at h1
        simpa using h1
      · intro x hx
        rcases List.mem_append.mp hx with hx | hx
        · exact ih.2 x hx
        · simp at hx; rw [hx]

/-- Witness for C1 at a concrete run: enqueue `[7]`, then relay it. -/
theorem pipe_fifo_transparency_witness :
    c1State.sent.map Prod.fst ++ c1State.queue = c1State.enqueued ∧
    ∀ x ∈ c1State.sent, x.2 = (1, 2) :=
  pipe_fifo_transparency false false (1, 2) c1State
    (PipeReach.step
      (PipeReach.step PipeReach.init
        (PipeStep.enqueue _ [7] (fun h => nomatch h)))
      (PipeStep.dequeueSend _ [7] [] rfl (fun h => nomatch h)))

/-- C4 counterexample.  The per-incarnation barrier fails for
`client-destination-relay` (`rw = true`, `sw = false`): the
`multiprocessing.Queue`s are never drained on reset (lines 405-469,
1040-1041) and the mode-`b'011'` relay never waits on `link_event`
(only `b'111'` does, line 685).  Concretely: `[7]` is enqueued under the
first incarnation's link flag, the handler resets (clearing the flag,
stranding the payload), and the respawned relay reaches a state with a
non-empty transmit log while the current incarnation's link flag is still
clear — refuting the claim that no downstream datagram is transmitted
before the slot's link flag transitions to set. -/
theorem destination_relay_reset_resend_cex :
    PipeReach true false (1, 2) c4CexState ∧
    c4CexState.sent ≠ [] ∧ c4CexState.link = false :=
  ⟨PipeReach.step
      (PipeReach.step
        (PipeReach.step
          (PipeReach.step PipeReach.init (PipeStep.setLink _))
          (PipeStep.enqueue _ [7] (fun _ => rfl)))
        (PipeStep.reset _))
      (PipeStep.dequeueSend _ [7] [] rfl (fun h => nomatch h)),
   by simp [c4CexState], rfl⟩

theorem pipe_first_link_aux (rw sw : Bool) (oaddr : Addr) (s : PipeState)
    (h : PipeReach rw sw oaddr s) :
    (s.link = true → s.everLinked = true) ∧
    (rw = true → s.everLinked = false → s.queue = [] ∧ s.sent = []) ∧
    (sw = true → s.sent ≠ [] → s.everLinked = true) := by
  induction h with
  | init =>
    exact ⟨fun hl => Bool.noConfusion hl, fun _ _ => ⟨rfl, rfl⟩,
      fun _ hs => absurd rfl hs⟩
  | step hst hr ih =>
    rename_i s' t'
    cases hr with
    | setLink =>
      exact ⟨fun _ => rfl, fun _ hE => Bool.noConfusion hE, fun _ _ => rfl⟩
    | reset =>
      exact ⟨fun hl => Bool.noConfusion hl, ih.2.1, ih.2.2⟩
    | enqueue p hg =>
      refine ⟨ih.1, ?_, ih.2.2⟩
      intro hrw hE
      exact absurd (ih.1 (hg hrw))
        (by simp [show s'.everLinked = false from hE])
    | dequeueSend p rest hq hg =>
      refine ⟨ih.1, ?_, fun hsw _ => ih.1 (hg hsw)⟩
      intro hrw hE
      have h1 := (ih.2.1 hrw hE).1
      rw [hq] at h1
      cases h1

/-- C4 as amended.  On a destination channel — where the
`*-destination-receive` producer waits on the link flag before enqueuing
(`rw = true`, lines 541-543), and `server-destination-relay` additionally
waits before every dequeue (`sw = true`, line 685) — no downstream
datagram is ever transmitted before the slot's link flag has transitioned
to set *for the first time*: a non-empty transmit log implies the first
keep-alive handshake completed at some earlier point.  The
per-incarnation form of the barrier is refuted by the counterexample:
after a reset, `client-destination-relay` (which never waits on the flag)
may transmit payloads stranded in the undrained queue while the new
incarnation's link flag is still clear. -/
theorem destination_relay_first_link_barrier (rw sw : Bool) (oaddr : Addr)
    (s : PipeState) (hrole : rw = true ∨ sw = true)
    (h : PipeReach rw sw oaddr s) (hs : s.sent ≠ []) :
    s.everLinked = true := by
  rcases hrole with hrw | hsw
  · by_contra hE
    have h1 := (pipe_first_link_aux rw sw oaddr s h).2.1 hrw
      (by simpa using hE)
    exact hs h1.2
  · exact (pipe_first_link_aux rw sw oaddr s h).2.2 hsw hs

/-- Witness for C4's amended theorem at a concrete run: set the link,
enqueue `[7]`, relay it, and conclude the link flag was set at some
point. -/
theorem destination_relay_first_link_barrier_witness :
    c4State.everLinked = true :=
  destination_relay_first_link_barrier true true (1, 2) c4State (Or.inl rfl)
    (PipeReach.step
      (PipeReach.step
        (PipeReach.step PipeReach.init (PipeStep.setLink _))
        (PipeStep.enqueue _ [7] (fun _ => rfl)))
      (PipeStep.dequeueSend _ [7] [] rfl (fun _ => rfl)))
    (by simp [c4State])

/-- C2 counterexample.  A datagram whose payload equals
`KEEP_ALIVE_HALT_PACKET` *is* enqueued for forwarding by the receive
worker (here `client-source-receive` on an empty state): the filter at
line 559 compares against `KEEP_ALIVE_PACKET` only, so the reserved halt
byte string reaches the endpoint-bound queue, contradicting the claim. -/
theorem keep_alive_halt_enqueued_cex :
    (wookiee_receive_packet ⟨false, false⟩ 1 emptyRecvState
        KEEP_ALIVE_HALT_PACKET).sourceQueue = [KEEP_ALIVE_HALT_PACKET] ∧
    KEEP_ALIVE_HALT_PACKET ≠ KEEP_ALIVE_PACKET := by
  constructor
  · rfl
  · decide

/-- C2 as amended.  Only `KEEP_ALIVE` is filtered, and only by the
per-slot receive workers: in every receive mode a datagram whose payload
equals `KEEP_ALIVE_PACKET` is never enqueued on either channel — the
worker instead enqueues the slot number on the reset channel and sets the
exit flag; the server admission worker applies no keep-alive filter and
enqueues a `KEEP_ALIVE_PACKET` payload from a known peer like any other
datagram. -/
theorem keep_alive_receive_filter (mode : RecvMode) (peer : Nat)
    (st : RecvState) (peers : Nat) (sst : SrvState) (iaddr : Addr) (qi : Nat)
    (hq : dictGet sst.dict iaddr = some qi) (hlt : qi < sst.queues.length) :
    (wookiee_receive_packet mode peer st KEEP_ALIVE_PACKET).sourceQueue
        = st.sourceQueue ∧
    (wookiee_receive_packet mode peer st KEEP_ALIVE_PACKET).destQueue
        = st.destQueue ∧
    (wookiee_receive_packet mode peer st KEEP_ALIVE_PACKET).exitEvent = true ∧
    (wookiee_receive_packet mode peer st KEEP_ALIVE_PACKET).resetQueue
        = st.resetQueue ++ [peer] ∧
    (wookiee_server_worker_packet peers sst KEEP_ALIVE_PACKET iaddr).queues.getD qi []
        = sst.queues.getD qi [] ++ [KEEP_ALIVE_PACKET] := by
  refine ⟨?_, ?_, ?_, ?_, ?_⟩
  · simp [wookiee_receive_packet]
  · simp [wookiee_receive_packet]
  · simp [wookiee_receive_packet]
  · simp [wookiee_receive_packet]
  · simp only [wookiee_server_worker_packet, hq, enqueuePacket]
    exact getD_set_self sst.queues qi _ [] hlt

/-- Witness for C2's amended theorem at a concrete known-peer state. -/
theorem keep_alive_receive_filter_witness :
    (wookiee_receive_packet ⟨false, false⟩ 1 emptyRecvState
        KEEP_ALIVE_PACKET).sourceQueue = emptyRecvState.sourceQueue ∧
    (wookiee_server_worker_packet 2 c5State KEEP_ALIVE_PACKET (10, 1)).queues.getD 0 []
        = c5State.queues.getD 0 [] ++ [KEEP_ALIVE_PACKET] := by
  refine ⟨(keep_alive_receive_filter ⟨false, false⟩ 1 emptyRecvState 2 c5State
      (10, 1) 0 ?_ ?_).1,
    (keep_alive_receive_filter ⟨false, false⟩ 1 emptyRecvState 2 c5State
      (10, 1) 0 ?_ ?_).2.2.2.2⟩ <;> decide

/-- C8.  In `wookiee_receive_worker`, a socket-read timeout on a
`*-destination-receive` worker whose exit flag is still clear has exactly
two effects — the slot number is appended to the Main Supervisor's reset
queue and the exit flag is set, all other state being untouched — while a
timeout on a `*-source-receive` worker changes nothing at all. -/
theorem receive_timeout_policy (mode : RecvMode) (peer : Nat) (st : RecvState) :
    (mode.destination = true → st.exitEvent = false →
      wookiee_receive_timeout mode peer st =
        { st with resetQueue := st.resetQueue ++ [peer], exitEvent := true }) ∧
    (mode.destination = false → wookiee_receive_timeout mode peer st = st) := by
  constructor
  · intro hd he
    simp [wookiee_receive_timeout, hd, he]
  · intro hd
    simp [wookiee_receive_timeout, hd]

/-- Witness for C8 at concrete states. -/
theorem receive_timeout_policy_witness :
    wookiee_receive_timeout ⟨false, true⟩ 1 emptyRecvState =
      { emptyRecvState with resetQueue := [1], exitEvent := true } ∧
    wookiee_receive_timeout ⟨false, false⟩ 1 emptyRecvState = emptyRecvState :=
  ⟨(receive_timeout_policy ⟨false, true⟩ 1 emptyRecvState).1 rfl rfl,
   (receive_timeout_policy ⟨false, false⟩ 1 emptyRecvState).2 rfl⟩

/-- C10.  If the `server-source-relay` worker enters its keep-alive phase
with the slot's remote-peer event already set, the guarded block — and
with it the loop that binds `kaaddr` — is skipped entirely, and the
unconditional `oaddr = kaaddr` of line 675 raises an unhandled
`NameError`, whatever datagrams might have been available: the phase
yields `Except.error`, never an outcome, so `link_event.set()` at line
678 is unreachable and the link flag is never set by this worker. -/
theorem server_relay_keep_alive_name_error (iters : List KAIter) :
    wookiee_relay_keep_alive true iters = .error .nameError := by
  simp [wookiee_relay_keep_alive]

/-- C3 counterexample.  The server keep-alive loop accepts *any* received
datagram: one reception of the application payload `b'AB'` from
`1.2.3.4:7777` while the remote-peer event is set makes the server
transmit the halt packet, record that sender as tunnel target and set the
link flag — with `peer_connection_received` still false, i.e. with zero
`KEEP_ALIVE` datagrams ever observed, contradicting the claim that both
sides have observed at least one `KEEP_ALIVE` when the link flag is
set. -/
theorem server_keep_alive_zero_ka_cex :
    wookiee_relay_keep_alive false [c3CexIter] =
      .ok { target := (16909060, 7777), confirmed := false,
            sends := [(KEEP_ALIVE_HALT_PACKET, (16909060, 7777))],
            linkSet := true } ∧
    c3CexIter.kadata ≠ KEEP_ALIVE_PACKET := by
  exact ⟨rfl, by decide⟩

theorem serverKAGo_spec (iters : List KAIter) (cur : Option Addr)
    (conf : Bool) (sends : List (Payload × Addr)) (out : KAOutcome)
    (hlast : ∀ it ∈ iters.dropLast, it.rpAfterRecv = false)
    (h : serverKAGo iters cur conf sends = .ok out) :
    out.linkSet = true ∧
    (iters = [] → cur = some out.target ∧ out.confirmed = conf) ∧
    (iters ≠ [] → some out.target = lastSender iters ∧
      out.confirmed =
        (conf || iters.any (fun it => decide (it.kadata = KEEP_ALIVE_PACKET)))) := by
  induction iters generalizing cur conf sends with
  | nil =>
    cases cur with
    | none => simp [serverKAGo] at h
    | some a =>
      simp only [serverKAGo] at h
      cases h
      exact ⟨rfl, fun _ => ⟨rfl, rfl⟩, fun hne => absurd rfl hne⟩
  | cons it rest ih =>
    by_cases hrp : it.rpAfterRecv = true
    · have hrest : rest = [] := by
        cases rest with
        | nil => rfl
        | cons r rs =>
          exact absurd (hlast it (by simp [List.dropLast])) (by simp [hrp])
      subst hrest
      simp only [serverKAGo, hrp, if_true] at h
      cases h
      refine ⟨rfl, fun he => absurd he (by simp), fun _ => ⟨rfl, by simp⟩⟩
    · have hrp' : it.rpAfterRecv = false := by
        cases hb : it.rpAfterRecv
        · rfl
        · exact absurd hb hrp
      simp only [serverKAGo, hrp', Bool.false_eq_true, if_false] at h
      have hlast' : ∀ x ∈ rest.dropLast, x.rpAfterRecv = false := by
        intro x hx
        cases rest with
        | nil => simp at hx
        | cons r rs =>
          exact hlast x (by simpa [List.dropLast] using List.mem_cons_of_mem it hx)
      have hres := ih (some it.kaaddr)
        (conf || decide (it.kadata = KEEP_ALIVE_PACKET)) _ hlast' h
      refine ⟨hres.1, fun he => absurd he (by simp), fun _ => ?_⟩
      cases hrest : rest with
      | nil =>
        subst hrest
        have h2 := (hres.2.1 rfl)
        refine ⟨?_, ?_⟩
        · show some out.target = lastSender [it]
          rw [show lastSender [it] = some it.kaaddr from rfl, ← h2.1]
        · simp [h2.2, hrp']
      | cons r rs =>
        subst hrest
        have h3 := hres.2.2 (by simp)
        refine ⟨h3.1, ?_⟩
        rw [h3.2]
        simp [Bool.or_assoc]

/-- C3 as amended.  Whenever the `server-source-relay` keep-alive phase
completes and sets the link flag, at least one handshake datagram was
received and the server has recorded the source `(IP, port)` of the most
recent one as the tunnel target for the slot; but neither side need have
observed a `KEEP_ALIVE`: `peer_connection_received` is true exactly when
some received handshake datagram's payload was `KEEP_ALIVE_PACKET`
(`hlast` states that the remote-peer event is observed set at most at the
last reception, i.e. `iters` is the exact reception sequence of the
loop). -/
theorem server_keep_alive_link_invariant (iters : List KAIter)
    (out : KAOutcome)
    (hlast : ∀ it ∈ iters.dropLast, it.rpAfterRecv = false)
    (h : wookiee_relay_keep_alive false iters = .ok out) :
    out.linkSet = true ∧ iters ≠ [] ∧ some out.target = lastSender iters ∧
    (out.confirmed = true ↔ ∃ it ∈ iters, it.kadata = KEEP_ALIVE_PACKET) := by
  simp only [wookiee_relay_keep_alive, if_neg (by simp : ¬(False : Prop))] at h
  have hspec := serverKAGo_spec iters none false [] out hlast
    (by simpa [wookiee_relay_keep_alive] using h)
  have hne : iters ≠ [] := by
    intro he
    exact nomatch (hspec.2.1 he).1
  have h3 := hspec.2.2 hne
  refine ⟨hspec.1, hne, h3.1, ?_⟩
  rw [h3.2]
  simp

/-- Witness for C3's amended theorem: a single genuine `KEEP_ALIVE`
reception from `(5, 6)` with the remote-peer event set. -/
theorem server_keep_alive_link_invariant_witness :
    ∃ out : KAOutcome, out.linkSet = true ∧
      ([c3WitIter] : List KAIter) ≠ [] ∧
      some out.target = lastSender [c3WitIter] ∧
      (out.confirmed = true ↔ ∃ it ∈ [c3WitIter], it.kadata = KEEP_ALIVE_PACKET) :=
  ⟨{ target := (5, 6), confirmed := true,
     sends := [(KEEP_ALIVE_HALT_PACKET, (5, 6))], linkSet := true },
   server_keep_alive_link_invariant [c3WitIter] _ (by simp) rfl⟩

theorem except_bind_error {α β : Type} {e : Except Nat α} {f : α → Except Nat β}
    {c : Nat} (h : (e >>= f) = .error c) :
    e = .error c ∨ ∃ a, e = .ok a ∧ f a = .error c := by
  cases e with
  | error d =>
    left
    simp only [bind, Except.bind] at h
    cases h
    rfl
  | ok a => exact Or.inr ⟨a, rfl, h⟩

theorem validateMode_error {args : Args} {c : Nat}
    (h : validateMode args = .error c) : c = 1 ∨ c = 2 ∨ c = 3 ∨ c = 4 ∨ c = 5 := by
  unfold validateMode at h
  split_ifs at h <;> simp_all

theorem validateLocalIp_error {args : Args} {c : Nat}
    (h : validateLocalIp args = .error c) : c = 7 := by
  unfold validateLocalIp at h
  split at h
  · simp_all
  · split_ifs at h <;> simp_all

theorem validatePeers_error {args : Args} {c : Nat}
    (h : validatePeers args = .error c) : c = 8 := by
  unfold validatePeers at h
  split at h
  · simp_all
  · split_ifs at h <;> simp_all

theorem validateSourceIp_error {b : Bool} {args : Args} {c : Nat}
    (h : validateSourceIp b args = .error c) : c = 9 := by
  unfold validateSourceIp at h
  split_ifs at h
  split at h
  · split_ifs at h <;> simp_all
  · simp_all

theorem validateDestIp_error {b : Bool} {args : Args} {c : Nat}
    (h : validateDestIp b args = .error c) : c = 10 := by
  unfold validateDestIp at h
  split_ifs at h
  split at h
  · split_ifs at h <;> simp_all
  · simp_all

theorem validateBasePort_error {code : Nat} {s : String} {peers : Int} {c : Nat}
    (h : validateBasePort code s peers = .error c) : c = code := by
  unfold validateBasePort at h
  split at h
  · simp_all
  · split_ifs at h <;> simp_all

theorem validateSourcePort_error {b : Bool} {args : Args} {base : Int} {c : Nat}
    (h : validateSourcePort b args base = .error c) : c = 13 := by
  unfold validateSourcePort at h
  by_cases hb : b = true
  · rw [if_pos hb] at h
    split at h
    · simp_all
    · split_ifs at h <;> simp_all
  · rw [if_neg hb] at h
    split_ifs at h <;> simp_all

theorem validateDestinationPort_error {b : Bool} {args : Args} {base : Int}
    {c : Nat} (h : validateDestinationPort b args base = .error c) : c = 14 := by
  unfold validateDestinationPort at h
  by_cases hb : b = true
  · rw [if_pos hb] at h
    split_ifs at h <;> simp_all
  · rw [if_neg hb] at h
    split at h
    · simp_all
    · split_ifs at h <;> simp_all

theorem validateStartup_error_codes (args : Args) (c : Nat)
    (h : validateStartup args = .error c) : c ≠ 0 ∧ c ∈ startupErrorCodes := by
  have hmem : c ∈ startupErrorCodes := by
    unfold validateStartup at h
    rcases except_bind_error h with h1 | ⟨isServer, _, h⟩
    · rcases validateMode_error h1 with h2 | h2 | h2 | h2 | h2 <;>
        (subst h2; decide)
    rcases except_bind_error h with h1 | ⟨localIp, _, h⟩
    · rw [validateLocalIp_error h1]; decide
    rcases except_bind_error h with h1 | ⟨peers, _, h⟩
    · rw [validatePeers_error h1]; decide
    rcases except_bind_error h with h1 | ⟨sourceIp, _, h⟩
    · rw [validateSourceIp_error h1]; decide
    rcases except_bind_error h with h1 | ⟨destIp, _, h⟩
    · rw [validateDestIp_error h1]; decide
    rcases except_bind_error h with h1 | ⟨serverRelayBase, _, h⟩
    · rw [validateBasePort_error h1]; decide
    rcases except_bind_error h with h1 | ⟨clientRelayBase, _, h⟩
    · rw [validateBasePort_error h1]; decide
    rcases except_bind_error h with h1 | ⟨sourcePort, _, h⟩
    · rw [validateSourcePort_error h1]; decide
    rcases except_bind_error h with h1 | ⟨destinationPort, _, h⟩
    · rw [validateDestinationPort_error h1]; decide
    exact absurd h (by simp)
  refine ⟨?_, hmem⟩
  intro h0
  subst h0
  revert hmem
  decide

theorem acceptable_args_ok (args : Args) (hacc : acceptableArgs args = true) :
    (validateStartup args).isOk = true := by
  unfold acceptableArgs at hacc
  cases hp : strToInt? args.peers with
  | none => rw [hp] at hacc; simp at hacc
  | some peers => ?_
  rw [hp] at hacc
  simp only [Bool.and_eq_true, decide_eq_true_eq] at hacc
  have hpeers := hacc.1.1.1.1
  have hlo := hacc.1.1.1.2
  have hsb := hacc.1.1.2
  have hcb := hacc.1.2
  have hrole := hacc.2
  clear hacc
  cases hl : args.localip with
  | none => rw [hl] at hlo; simp at hlo
  | some l => ?_
  rw [hl] at hlo
  cases hnb : strToInt? args.serverRelayBasePort with
  | none => rw [hnb] at hsb; simp at hsb
  | some nb => ?_
  rw [hnb] at hsb
  simp only [Bool.and_eq_true, decide_eq_true_eq] at hsb
  obtain ⟨hnb1, hnb2⟩ := hsb
  cases hcbm : strToInt? args.clientRelayBasePort with
  | none => rw [hcbm] at hcb; simp at hcb
  | some cb => ?_
  rw [hcbm] at hcb
  simp only [Bool.and_eq_true, decide_eq_true_eq] at hcb
  obtain ⟨hcb1, hcb2⟩ := hcb
  replace hlo : isValidIPv4 l = true := hlo
  have hpe : validatePeers args = Except.ok peers := by
    unfold validatePeers
    rw [hp]
    show (if peers < 1 then Except.error 8 else Except.ok peers) = Except.ok peers
    rw [if_neg (by omega)]
  have hli : validateLocalIp args = Except.ok l := by
    unfold validateLocalIp
    rw [hl]
    show (if isValidIPv4 l = true then Except.ok l else Except.error 7) = Except.ok l
    rw [if_pos hlo]
  have hsbv : validateBasePort 11 args.serverRelayBasePort peers
      = Except.ok nb := by
    unfold validateBasePort
    rw [hnb]
    show (if nb < (PORTS_RANGE.1 : Int) ∨ nb > (PORTS_RANGE.2 : Int) - peers then
        Except.error 11 else Except.ok nb) = Except.ok nb
    rw [if_neg (by simp only [PORTS_RANGE]; push_cast; omega)]
  have hcbv : validateBasePort 12 args.clientRelayBasePort peers
      = Except.ok cb := by
    unfold validateBasePort
    rw [hcbm]
    show (if cb < (PORTS_RANGE.1 : Int) ∨ cb > (PORTS_RANGE.2 : Int) - peers then
        Except.error 12 else Except.ok cb) = Except.ok cb
    rw [if_neg (by simp only [PORTS_RANGE]; push_cast; omega)]
  split_ifs at hrole with hsrv hcli
  · -- server mode
    cases hip : args.iport with
    | none => rw [hip] at hrole; simp at hrole
    | some ip => ?_
    rw [hip] at hrole
    replace hrole : (match strToInt? ip with
      | none => false
      | some n => decide (1024 ≤ n) && decide (n ≤ 65535)) = true := hrole
    cases hn : strToInt? ip with
    | none => rw [hn] at hrole; simp at hrole
    | some n => ?_
    rw [hn] at hrole
    simp only [Bool.and_eq_true, decide_eq_true_eq] at hrole
    obtain ⟨hn1, hn2⟩ := hrole
    have hm : validateMode args = Except.ok true := by
      unfold validateMode
      rw [if_neg (by simp [hsrv]), if_pos hsrv, if_neg (by simp [hip])]
    have hsp : validateSourcePort true args nb = Except.ok n := by
      unfold validateSourcePort
      rw [if_pos rfl, hip]
      simp only [Option.getD_some]
      rw [hn]
      show (if n < (PORTS_RANGE.1 : Int) ∨ n > (PORTS_RANGE.2 : Int) then
          Except.error 13 else Except.ok n) = Except.ok n
      rw [if_neg (by simp only [PORTS_RANGE]; push_cast; omega)]
    have hdp : validateDestinationPort true args cb = Except.ok cb := by
      unfold validateDestinationPort
      rw [if_pos rfl, if_neg (by simp only [PORTS_RANGE]; push_cast; omega)]
    simp [validateStartup, bind, Except.bind, hm, hli, hpe, hsbv, hcbv,
      hsp, hdp, validateSourceIp, validateDestIp, Except.isOk, Except.toBool]
  · -- client mode
    simp only [Bool.and_eq_true] at hrole
    obtain ⟨⟨hsip, hdip⟩, hop⟩ := hrole
    cases hs : args.sourceip with
    | none => rw [hs] at hsip; simp at hsip
    | some s => ?_
    rw [hs] at hsip
    replace hsip : isValidIPv4 s = true := hsip
    cases hd : args.destip with
    | none => rw [hd] at hdip; simp at hdip
    | some d => ?_
    rw [hd] at hdip
    replace hdip : isValidIPv4 d = true := hdip
    cases hopm : args.oport with
    | none => rw [hopm] at hop; simp at hop
    | some op => ?_
    rw [hopm] at hop
    replace hop : (match strToInt? op with
      | none => false
      | some n => decide (1024 ≤ n) && decide (n ≤ 65535)) = true := hop
    cases hn : strToInt? op with
    | none => rw [hn] at hop; simp at hop
    | some n => ?_
    rw [hn] at hop
    simp only [Bool.and_eq_true, decide_eq_true_eq] at hop
    obtain ⟨hn1, hn2⟩ := hop
    have hm : validateMode args = Except.ok false := by
      unfold validateMode
      rw [if_pos hcli, if_neg (by simp [hs]), if_neg (by simp [hd]),
        if_neg (by simp [hopm])]
    have hsi : validateSourceIp false args = Except.ok (some s) := by
      unfold validateSourceIp
      rw [if_neg (by simp), hs]
      show (if isValidIPv4 s = true then Except.ok (some s) else Except.error 9)
          = Except.ok (some s)
      rw [if_pos hsip]
    have hdi : validateDestIp false args = Except.ok (some d) := by
      unfold validateDestIp
      rw [if_neg (by simp), hd]
      show (if isValidIPv4 d = true then Except.ok (some d) else Except.error 10)
          = Except.ok (some d)
      rw [if_pos hdip]
    have hsp : validateSourcePort false args nb = Except.ok nb := by
      unfold validateSourcePort
      rw [if_neg (by simp), if_neg (by simp only [PORTS_RANGE]; push_cast; omega)]
    have hdp : validateDestinationPort false args cb = Except.ok n := by
      unfold validateDestinationPort
      rw [if_neg (by simp), hopm]
      simp only [Option.getD_some]
      rw [hn]
      show (if n < (PORTS_RANGE.1 : Int) ∨ n > (PORTS_RANGE.2 : Int) then
          Except.error 14 else Except.ok n) = Except.ok n
      rw [if_neg (by simp only [PORTS_RANGE]; push_cast; omega)]
    simp [validateStartup, bind, Except.bind, hm, hli, hpe, hsi, hdi,
      hsbv, hcbv, hsp, hdp, Except.isOk, Except.toBool]

/-- C9 counterexample.  The claim holds that every port inside
`[1024, 65535]` passes validation, but the relay base ports are checked
against `PORTS_RANGE[1] - peers`: with one peer, a server relay base port
of 65535 — "valid" in the claim's sense (`claimValidArgs`) — is rejected
with `SystemExit(11)`. -/
theorem startup_inrange_port_rejected_cex :
    claimValidArgs c9EdgeArgs = true ∧
    validateStartup c9EdgeArgs = .error 11 := by
  constructor <;> decide

/-- C9 as amended.  Every failure of the startup validation chain
terminates with a non-zero exit code drawn from the fixed list
`startupErrorCodes`; those codes are pairwise distinct (one per validation
check, a missing and a malformed value of the same parameter sharing the
check's code); and no configuration meeting the code's acceptance
criteria — which require the relay base ports to lie in
`[1024, 65535 - peers]`, not merely `[1024, 65535]` — takes any of these
exits. -/
theorem startup_validation_exit_codes :
    (∀ args c, validateStartup args = .error c →
      c ≠ 0 ∧ c ∈ startupErrorCodes) ∧
    startupErrorCodes.Nodup ∧
    (∀ args, acceptableArgs args = true → (validateStartup args).isOk = true) :=
  ⟨validateStartup_error_codes, by decide, acceptable_args_ok⟩

/-- Witness for C9's amended theorem: the role-less `c9BadArgs` is
rejected with exit code 1, and the well-formed `c9GoodArgs` passes. -/
theorem startup_validation_exit_codes_witness :
    (1 : Nat) ≠ 0 ∧ (1 : Nat) ∈ startupErrorCodes ∧
    (validateStartup c9GoodArgs).isOk = true :=
  ⟨(startup_validation_exit_codes.1 c9BadArgs 1 (by decide)).1,
   (startup_validation_exit_codes.1 c9BadArgs 1 (by decide)).2,
   startup_validation_exit_codes.2.2 c9GoodArgs (by decide)⟩

/-- C7 (code bug).  With one peer `1.2.3.4:5555` admitted — the worker's
array view still aliases the shared arrays, so `1.2.3.4 = 16909060` and
port `5555` are visible to the `server-destination-relay` workers — the
`SERVER_PEER_CONNECTION_TIMEOUT` purge empties the dict and restores every
vacancy, and the worker's own (rebound) view reads zero, but the shared
slot-to-`(IP, port)` arrays are *not* zeroed: lines 269-270 rebind the
local names instead of writing through them, leaving the stale peer
address in shared memory (and detaching all later admissions from it). -/
theorem server_purge_shared_arrays_bug :
    c7Admitted.dict = [((16909060, 5555), 0)] ∧
    c7Admitted.sharedAddr = [16909060] ∧ c7Admitted.sharedPort = [5555] ∧
    c7Purged.dict = [] ∧ c7Purged.vacancy = [true] ∧
    c7Purged.viewAddr = [0] ∧ c7Purged.viewPort = [0] ∧
    c7Purged.viewIsShared = false ∧
    c7Purged.sharedAddr = [16909060] ∧ c7Purged.sharedPort = [5555] ∧
    c7Purged.sharedAddr ≠ [0] := by
  decide

theorem setView_dict (st : SrvState) (i a p : Nat) :
    (setView st i a p).dict = st.dict := by
  cases h : st.viewIsShared <;> simp [setView, h]

theorem setView_vacancy (st : SrvState) (i a p : Nat) :
    (setView st i a p).vacancy = st.vacancy := by
  cases h : st.viewIsShared <;> simp [setView, h]

theorem setView_events (st : SrvState) (i a p : Nat) :
    (setView st i a p).events = st.events := by
  cases h : st.viewIsShared <;> simp [setView, h]

theorem setView_queues (st : SrvState) (i a p : Nat) :
    (setView st i a p).queues = st.queues := by
  cases h : st.viewIsShared <;> simp [setView, h]

theorem setView_viewAddr (st : SrvState) (i a p : Nat) :
    (setView st i a p).viewAddr = st.viewAddr.set i a := by
  cases h : st.viewIsShared <;> simp [setView, h]

theorem setView_viewPort (st : SrvState) (i a p : Nat) :
    (setView st i a p).viewPort = st.viewPort.set i p := by
  cases h : st.viewIsShared <;> simp [setView, h]

theorem nodup_keys_eq {d : List (Addr × Nat)} (hn : (d.map Prod.fst).Nodup)
    {p q : Addr × Nat} (hp : p ∈ d) (hq : q ∈ d) (he : p.1 = q.1) : p = q := by
  induction d with
  | nil => cases hp
  | cons a t ih =>
    rw [List.map_cons, List.nodup_cons] at hn
    rcases List.mem_cons.mp hp with hp1 | hp1 <;>
      rcases List.mem_cons.mp hq with hq1 | hq1
    · rw [hp1, hq1]
    · subst hp1
      exact absurd (he ▸ List.mem_map_of_mem Prod.fst hq1) hn.1
    · subst hq1
      exact absurd (he ▸ List.mem_map_of_mem Prod.fst hp1) hn.1
    · exact ih hn.2 hp1 hq1

/-- Unpacked form of `SrvInv` for a single dict entry: the entry's key is
exactly the array view of its slot. -/
theorem inv_entry_key {peers : Nat} {st : SrvState} (hinv : SrvInv peers st)
    {p : Addr × Nat} (hp : p ∈ st.dict) :
    p.1 = (st.viewAddr.getD p.2 0, st.viewPort.getD p.2 0) := by
  obtain ⟨-, -, -, -, -, -, hent, -, -⟩ := hinv
  obtain ⟨-, -, h1, h2, -⟩ := hent p hp
  obtain ⟨a, b⟩ := p
  obtain ⟨x, y⟩ := a
  simp at h1 h2
  simp [h1, h2]

/-- In a consistent state, the key targeted by the vacating pass of slot
`j` belongs to the dict exactly when slot `j` is occupied, and then its
unique entry is slot `j`'s. -/
theorem inv_scan_key {peers : Nat} {st : SrvState} (hinv : SrvInv peers st)
    {j : Nat} (hj : j < peers)
    (hcon : ∃ q ∈ st.dict, q.1 = (st.viewAddr.getD j 0, st.viewPort.getD j 0)) :
    st.vacancy.getD j true = false ∧
    ∃ e ∈ st.dict, e.2 = j ∧
      e.1 = (st.viewAddr.getD j 0, st.viewPort.getD j 0) := by
  obtain ⟨q, hq, hqk⟩ := hcon
  have hinv' := hinv
  obtain ⟨-, -, -, -, -, -, hent, hocc, hvac⟩ := hinv'
  have hvacj : st.vacancy.getD j true = false := by
    by_contra hcontra
    have hv : st.vacancy.getD j true = true := by
      cases hb : st.vacancy.getD j true
      · exact absurd hb hcontra
      · rfl
    obtain ⟨hz1, hz2⟩ := hvac j hj hv
    have hq0 := (hent q hq).2.2.2.2
    rw [hqk, hz1, hz2] at hq0
    exact hq0 rfl
  obtain ⟨e, he, he2⟩ := hocc j hj hvacj
  refine ⟨hvacj, e, he, he2, ?_⟩
  rw [← he2]
  exact inv_entry_key hinv he

theorem vacateOne_eq (st : SrvState) (j : Nat) :
    vacateOne st j =
      if st.events.getD j false = false then
        if ∃ p ∈ st.dict,
            p.1 = (st.viewAddr.getD j 0, st.viewPort.getD j 0) then
          { dict := st.dict.filter (fun p =>
              decide (p.1 ≠ (st.viewAddr.getD j 0, st.viewPort.getD j 0)))
            vacancy := st.vacancy.set j true
            viewAddr := st.viewAddr.set j 0
            viewPort := st.viewPort.set j 0
            viewIsShared := st.viewIsShared
            sharedAddr :=
              if st.viewIsShared then st.sharedAddr.set j 0 else st.sharedAddr
            sharedPort :=
              if st.viewIsShared then st.sharedPort.set j 0 else st.sharedPort
            events := st.events
            queues := st.queues
            packetCount := st.packetCount
            maxPacket := st.maxPacket }
        else st
      else st := by
  simp only [vacateOne, setView]
  by_cases h1 : st.events.getD j false = false
  · rw [if_pos h1]; rw [if_pos h1]
    by_cases h2 : ∃ p ∈ st.dict,
        p.1 = (st.viewAddr.getD j 0, st.viewPort.getD j 0)
    · rw [if_pos h2]; rw [if_pos h2]
      cases hS : st.viewIsShared
      · rw [if_neg (by simp [hS])]; rw [if_neg (by simp [hS])]
        rw [if_neg (by simp [hS])]
      · rw [if_pos (by simp [hS])]; rw [if_pos (by simp [hS])]
        rw [if_pos (by simp [hS])]
    · rw [if_neg h2]; rw [if_neg h2]
  · rw [if_neg h1]; rw [if_neg h1]

theorem vacateOne_events (st : SrvState) (j : Nat) :
    (vacateOne st j).events = st.events := by
  rw [vacateOne_eq]
  split_ifs <;> rfl

theorem vacateOne_queues (st : SrvState) (j : Nat) :
    (vacateOne st j).queues = st.queues := by
  rw [vacateOne_eq]
  split_ifs <;> rfl

theorem vacateOne_dict_subset (st : SrvState) (j : Nat) {p : Addr × Nat}
    (hp : p ∈ (vacateOne st j).dict) : p ∈ st.dict := by
  rw [vacateOne_eq] at hp
  by_cases h1 : st.events.getD j false = false
  · rw [if_pos h1] at hp
    by_cases h2 : ∃ p ∈ st.dict,
        p.1 = (st.viewAddr.getD j 0, st.viewPort.getD j 0)
    · rw [if_pos h2] at hp
      replace hp : p ∈ st.dict.filter (fun p =>
          decide (p.1 ≠ (st.viewAddr.getD j 0, st.viewPort.getD j 0))) := hp
      exact (List.mem_filter.mp hp).1
    · rw [if_neg h2] at hp
      exact hp
  · rw [if_neg h1] at hp
    exact hp

/-- A vacating pass of slot `j` does not disturb any other slot `i`:
its vacancy, array view and dict entries are untouched. -/
theorem vacateOne_other {peers : Nat} {st : SrvState} {j : Nat} (i : Nat)
    (hinv : SrvInv peers st) (hj : j < peers) (hne : i ≠ j) :
    (vacateOne st j).vacancy.getD i true = st.vacancy.getD i true ∧
    (vacateOne st j).viewAddr.getD i 0 = st.viewAddr.getD i 0 ∧
    (vacateOne st j).viewPort.getD i 0 = st.viewPort.getD i 0 ∧
    (∀ p : Addr × Nat, p.2 = i →
      (p ∈ (vacateOne st j).dict ↔ p ∈ st.dict)) := by
  by_cases hev : st.events.getD j false = false
  case neg =>
    rw [vacateOne_eq, if_neg hev]
    exact ⟨rfl, rfl, rfl, fun p _ => Iff.rfl⟩
  by_cases hcon : ∃ p ∈ st.dict,
      p.1 = (st.viewAddr.getD j 0, st.viewPort.getD j 0)
  case neg =>
    rw [vacateOne_eq, if_pos hev, if_neg hcon]
    exact ⟨rfl, rfl, rfl, fun p _ => Iff.rfl⟩
  rw [vacateOne_eq, if_pos hev, if_pos hcon]
  · obtain ⟨hvacj, e, he, he2, hek⟩ := inv_scan_key hinv hj hcon
    have hnd := hinv.2.2.2.2.2.1
    refine ⟨?_, ?_, ?_, ?_⟩
    · show (st.vacancy.set j true).getD i true = st.vacancy.getD i true
      exact getD_set_ne _ j i _ _ (fun h => hne h.symm)
    · show (st.viewAddr.set j 0).getD i 0 = st.viewAddr.getD i 0
      exact getD_set_ne _ j i _ _ (fun h => hne h.symm)
    · show (st.viewPort.set j 0).getD i 0 = st.viewPort.getD i 0
      exact getD_set_ne _ j i _ _ (fun h => hne h.symm)
    · intro p hpi
      show p ∈ st.dict.filter _ ↔ p ∈ st.dict
      rw [List.mem_filter]
      constructor
      · exact fun h => h.1
      · intro hp
        refine ⟨hp, ?_⟩
        simp only [decide_eq_true_eq]
        intro hpk
        have := nodup_keys_eq hnd hp he (by rw [hpk, hek])
        rw [this] at hpi
        exact hne (hpi ▸ he2.symm ▸ rfl)

/-- A vacating pass of an occupied slot `j` whose remote-peer event is
clear evicts it: vacancy restored, view zeroed, forward entry removed. -/
theorem vacateOne_self_cleared {peers : Nat} {st : SrvState} {j : Nat}
    (hinv : SrvInv peers st) (hj : j < peers)
    (hev : st.events.getD j false = false)
    (hvacj : st.vacancy.getD j true = false) :
    (vacateOne st j).vacancy.getD j true = true ∧
    (vacateOne st j).viewAddr.getD j 0 = 0 ∧
    (vacateOne st j).viewPort.getD j 0 = 0 ∧
    (∀ p ∈ (vacateOne st j).dict, p.2 ≠ j) := by
  have hinv' := hinv
  obtain ⟨hvl, hal, hpl, hel, hql, hnd, hent, hocc, hvac⟩ := hinv'
  obtain ⟨e, he, he2⟩ := hocc j hj hvacj
  have hek : e.1 = (st.viewAddr.getD j 0, st.viewPort.getD j 0) := by
    rw [← he2]; exact inv_entry_key hinv he
  have hcon : ∃ q ∈ st.dict,
      q.1 = (st.viewAddr.getD j 0, st.viewPort.getD j 0) := ⟨e, he, hek⟩
  rw [vacateOne_eq, if_pos hev, if_pos hcon]
  refine ⟨?_, ?_, ?_, ?_⟩
  · show (st.vacancy.set j true).getD j true = true
    exact getD_set_self _ j _ _ (by rw [hvl]; exact hj)
  · show (st.viewAddr.set j 0).getD j 0 = 0
    exact getD_set_self _ j _ _ (by rw [hal]; exact hj)
  · show (st.viewPort.set j 0).getD j 0 = 0
    exact getD_set_self _ j _ _ (by rw [hpl]; exact hj)
  · intro p hp hpj
    replace hp : p ∈ st.dict.filter (fun p =>
        decide (p.1 ≠ (st.viewAddr.getD j 0, st.viewPort.getD j 0))) := hp
    rw [List.mem_filter] at hp
    have hpk := inv_entry_key hinv hp.1
    rw [hpj] at hpk
    have h2 := hp.2
    simp only [decide_eq_true_eq] at h2
    exact h2 hpk

/-- A vacating pass skips a slot whose remote-peer event is set. -/
theorem vacateOne_self_set {st : SrvState} {j : Nat}
    (hev : st.events.getD j false = true) : vacateOne st j = st := by
  rw [vacateOne_eq, if_neg (by rw [hev]; simp)]

/-- A vacating pass preserves the consistency invariant. -/
theorem vacateOne_inv {peers : Nat} {st : SrvState} {j : Nat}
    (hinv : SrvInv peers st) (hj : j < peers) :
    SrvInv peers (vacateOne st j) := by
  have hinv' := hinv
  obtain ⟨hvl, hal, hpl, hel, hql, hnd, hent, hocc, hvac⟩ := hinv'
  by_cases hev : st.events.getD j false = false
  case neg =>
    rw [vacateOne_eq, if_neg hev]
    exact ⟨hvl, hal, hpl, hel, hql, hnd, hent, hocc, hvac⟩
  by_cases hcon : ∃ p ∈ st.dict,
      p.1 = (st.viewAddr.getD j 0, st.viewPort.getD j 0)
  case neg =>
    rw [vacateOne_eq, if_pos hev, if_neg hcon]
    exact ⟨hvl, hal, hpl, hel, hql, hnd, hent, hocc, hvac⟩
  rw [vacateOne_eq, if_pos hev, if_pos hcon]
  · obtain ⟨hvacj, e, he, he2, hek⟩ := inv_scan_key hinv hj hcon
    refine ⟨?_, ?_, ?_, ?_, ?_, ?_, ?_, ?_, ?_⟩
    · show (st.vacancy.set j true).length = peers
      rw [List.length_set]; exact hvl
    · show (st.viewAddr.set j 0).length = peers
      rw [List.length_set]; exact hal
    · show (st.viewPort.set j 0).length = peers
      rw [List.length_set]; exact hpl
    · exact hel
    · exact hql
    · show ((st.dict.filter _).map Prod.fst).Nodup
      exact hnd.sublist (List.Sublist.map Prod.fst (List.filter_sublist _))
    · intro p hp
      replace hp : p ∈ st.dict.filter (fun p =>
          decide (p.1 ≠ (st.viewAddr.getD j 0, st.viewPort.getD j 0))) := hp
      rw [List.mem_filter] at hp
      obtain ⟨hp1, hp2⟩ := hp
      simp only [decide_eq_true_eq] at hp2
      obtain ⟨hlt, hvf, hva, hvp, hnz⟩ := hent p hp1
      have hpj : p.2 ≠ j := by
        intro hpj
        exact hp2 (hpj ▸ inv_entry_key hinv hp1)
      refine ⟨hlt, ?_, ?_, ?_, hnz⟩
      · show (st.vacancy.set j true).getD p.2 true = false
        rw [getD_set_ne _ j p.2 _ _ (fun h => hpj h.symm)]
        exact hvf
      · show (st.viewAddr.set j 0).getD p.2 0 = p.1.1
        rw [getD_set_ne _ j p.2 _ _ (fun h => hpj h.symm)]
        exact hva
      · show (st.viewPort.set j 0).getD p.2 0 = p.1.2
        rw [getD_set_ne _ j p.2 _ _ (fun h => hpj h.symm)]
        exact hvp
    · intro i hi hvi
      by_cases hij : i = j
      · subst hij
        replace hvi : (st.vacancy.set i true).getD i true = false := hvi
        rw [getD_set_self _ i _ _ (by rw [hvl]; exact hi)] at hvi
        cases hvi
      · replace hvi : (st.vacancy.set j true).getD i true = false := hvi
        rw [getD_set_ne _ j i _ _ (fun h => hij h.symm)] at hvi
        obtain ⟨p, hp, hp2⟩ := hocc i hi hvi
        refine ⟨p, ?_, hp2⟩
        show p ∈ st.dict.filter _
        rw [List.mem_filter]
        refine ⟨hp, ?_⟩
        simp only [decide_eq_true_eq]
        intro hpk
        have := nodup_keys_eq hnd hp he (by rw [hpk, hek])
        rw [this] at hp2
        exact hij (hp2 ▸ he2 ▸ rfl)
    · intro i hi hvi
      by_cases hij : i = j
      · subst hij
        constructor
        · show (st.viewAddr.set i 0).getD i 0 = 0
          exact getD_set_self _ i _ _ (by rw [hal]; exact hi)
        · show (st.viewPort.set i 0).getD i 0 = 0
          exact getD_set_self _ i _ _ (by rw [hpl]; exact hi)
      · replace hvi : (st.vacancy.set j true).getD i true = true := hvi
        rw [getD_set_ne _ j i _ _ (fun h => hij h.symm)] at hvi
        obtain ⟨hz1, hz2⟩ := hvac i hi hvi
        constructor
        · show (st.viewAddr.set j 0).getD i 0 = 0
          rw [getD_set_ne _ j i _ _ (fun h => hij h.symm)]
          exact hz1
        · show (st.viewPort.set j 0).getD i 0 = 0
          rw [getD_set_ne _ j i _ _ (fun h => hij h.symm)]
          exact hz2

/-- Cumulative behaviour of the vacating loop over a duplicate-free list
of slots: the invariant is preserved, the remote-peer events are never
written, unlisted slots are untouched, every listed occupied slot with a
clear event ends up evicted, and every listed slot with a set event is
untouched. -/
theorem vacateSlots_spec (peers : Nat) (l : List Nat) (st : SrvState)
    (hinv : SrvInv peers st) (hl : l.Nodup) (hlt : ∀ i ∈ l, i < peers) :
    SrvInv peers (vacateSlots l st) ∧
    (vacateSlots l st).events = st.events ∧
    (∀ i, i < peers → i ∉ l →
      (vacateSlots l st).vacancy.getD i true = st.vacancy.getD i true ∧
      (vacateSlots l st).viewAddr.getD i 0 = st.viewAddr.getD i 0 ∧
      (vacateSlots l st).viewPort.getD i 0 = st.viewPort.getD i 0 ∧
      (∀ p : Addr × Nat, p.2 = i →
        (p ∈ (vacateSlots l st).dict ↔ p ∈ st.dict))) ∧
    (∀ i ∈ l, st.events.getD i false = false →
        st.vacancy.getD i true = false →
      (vacateSlots l st).vacancy.getD i true = true ∧
      (vacateSlots l st).viewAddr.getD i 0 = 0 ∧
      (vacateSlots l st).viewPort.getD i 0 = 0 ∧
      (∀ p ∈ (vacateSlots l st).dict, p.2 ≠ i)) ∧
    (∀ i ∈ l, st.events.getD i false = true →
      (vacateSlots l st).vacancy.getD i true = st.vacancy.getD i true ∧
      (vacateSlots l st).viewAddr.getD i 0 = st.viewAddr.getD i 0 ∧
      (vacateSlots l st).viewPort.getD i 0 = st.viewPort.getD i 0 ∧
      (∀ p : Addr × Nat, p.2 = i →
        (p ∈ (vacateSlots l st).dict ↔ p ∈ st.dict))) := by
  induction l generalizing st with
  | nil =>
    exact ⟨hinv, rfl, fun i _ _ => ⟨rfl, rfl, rfl, fun p _ => Iff.rfl⟩,
      fun i hi => absurd hi (List.not_mem_nil i),
      fun i hi => absurd hi (List.not_mem_nil i)⟩
  | cons j rest ih =>
    have hj : j < peers := hlt j (List.mem_cons_self j rest)
    have hjrest : j ∉ rest := (List.nodup_cons.mp hl).1
    have hrestnd : rest.Nodup := (List.nodup_cons.mp hl).2
    have hrestlt : ∀ i ∈ rest, i < peers :=
      fun i hi => hlt i (List.mem_cons_of_mem j hi)
    have hinv' : SrvInv peers (vacateOne st j) := vacateOne_inv hinv hj
    have IH := ih (vacateOne st j) hinv' hrestnd hrestlt
    have hev_eq : (vacateOne st j).events = st.events := vacateOne_events st j
    refine ⟨IH.1, ?_, ?_, ?_, ?_⟩
    · rw [show vacateSlots (j :: rest) st
          = vacateSlots rest (vacateOne st j) from rfl, IH.2.1, hev_eq]
    · intro i hi hni
      have hij : i ≠ j := fun h => hni (h ▸ List.mem_cons_self j rest)
      have hirest : i ∉ rest := fun h => hni (List.mem_cons_of_mem j h)
      have h1 := vacateOne_other i hinv hj hij
      have h2 := IH.2.2.1 i hi hirest
      exact ⟨h2.1.trans h1.1, h2.2.1.trans h1.2.1,
        h2.2.2.1.trans h1.2.2.1,
        fun p hp => (h2.2.2.2 p hp).trans (h1.2.2.2 p hp)⟩
    · intro i hi hevi hvaci
      rcases List.mem_cons.mp hi with hij | hirest
      · subst hij
        have hself := vacateOne_self_cleared hinv hj hevi hvaci
        have h2 := IH.2.2.1 i hj hjrest
        refine ⟨h2.1.trans hself.1, h2.2.1.trans hself.2.1,
          h2.2.2.1.trans hself.2.2.1, ?_⟩
        intro p hp hpi
        exact hself.2.2.2 p ((h2.2.2.2 p hpi).mp hp) hpi
      · have hij : i ≠ j := fun h => hjrest (h ▸ hirest)
        have h1 := vacateOne_other i hinv hj hij
        have hevi' : (vacateOne st j).events.getD i false = false := by
          rw [hev_eq]; exact hevi
        have hvaci' : (vacateOne st j).vacancy.getD i true = false := by
          rw [h1.1]; exact hvaci
        exact IH.2.2.2.1 i hirest hevi' hvaci'
    · intro i hi hevi
      rcases List.mem_cons.mp hi with hij | hirest
      · subst hij
        have hskip : vacateOne st i = st := vacateOne_self_set hevi
        have h2 := IH.2.2.1 i hj hjrest
        refine ⟨h2.1.trans (by rw [hskip]), h2.2.1.trans (by rw [hskip]),
          h2.2.2.1.trans (by rw [hskip]), ?_⟩
        intro p hp
        exact (h2.2.2.2 p hp).trans (by rw [hskip])
      · have hij : i ≠ j := fun h => hjrest (h ▸ hirest)
        have h1 := vacateOne_other i hinv hj hij
        have hevi' : (vacateOne st j).events.getD i false = true := by
          rw [hev_eq]; exact hevi
        have h2 := IH.2.2.2.2 i hirest hevi'
        exact ⟨h2.1.trans h1.1, h2.2.1.trans h1.2.1,
          h2.2.2.1.trans h1.2.2.1,
          fun p hp => (h2.2.2.2 p hp).trans (h1.2.2.2 p hp)⟩

/-- C6.  When the admission worker handles a datagram from a new peer
address while all slots are occupied, the vacating scan of lines 211-227
evicts exactly the slots whose remote-peer event is cleared: each such
slot has its forward dict entry removed, its reverse array entries zeroed
and its vacancy restored, while every slot whose remote-peer event is set
keeps its vacancy, its reverse entries and its forward entry untouched —
an active slot is never evicted. -/
theorem vacate_scan_eviction (peers : Nat) (st : SrvState)
    (hinv : SrvInv peers st)
    (hfull : ∀ i, i < peers → st.vacancy.getD i true = false) :
    (∀ i, i < peers → st.events.getD i false = false →
      (vacateSlots (List.range peers) st).vacancy.getD i true = true ∧
      (vacateSlots (List.range peers) st).viewAddr.getD i 0 = 0 ∧
      (vacateSlots (List.range peers) st).viewPort.getD i 0 = 0 ∧
      (∀ p ∈ (vacateSlots (List.range peers) st).dict, p.2 ≠ i)) ∧
    (∀ i, i < peers → st.events.getD i false = true →
      (vacateSlots (List.range peers) st).vacancy.getD i true = false ∧
      (vacateSlots (List.range peers) st).viewAddr.getD i 0
        = st.viewAddr.getD i 0 ∧
      (vacateSlots (List.range peers) st).viewPort.getD i 0
        = st.viewPort.getD i 0 ∧
      (∀ p : Addr × Nat, p.2 = i →
        (p ∈ (vacateSlots (List.range peers) st).dict ↔ p ∈ st.dict))) := by
  have hspec := vacateSlots_spec peers (List.range peers) st hinv
    (List.nodup_range peers) (fun i hi => List.mem_range.mp hi)
  constructor
  · intro i hi hevi
    exact hspec.2.2.2.1 i (List.mem_range.mpr hi) hevi (hfull i hi)
  · intro i hi hevi
    have h := hspec.2.2.2.2 i (List.mem_range.mpr hi) hevi
    exact ⟨h.1.trans (hfull i hi), h.2.1, h.2.2.1, h.2.2.2⟩

/-- Witness for C6 on `c6State`: slot 0 (event cleared) is evicted, slot 1
(event set) keeps its vacancy and its forward entry. -/
theorem vacate_scan_eviction_witness :
    (vacateSlots (List.range 2) c6State).vacancy.getD 0 true = true ∧
    (vacateSlots (List.range 2) c6State).viewAddr.getD 0 0 = 0 ∧
    (∀ p ∈ (vacateSlots (List.range 2) c6State).dict, p.2 ≠ 0) ∧
    (vacateSlots (List.range 2) c6State).vacancy.getD 1 true = false ∧
    (((20, 2), 1) ∈ (vacateSlots (List.range 2) c6State).dict ↔
      ((20, 2), 1) ∈ c6State.dict) :=
  have h := vacate_scan_eviction 2 c6State (by decide) (by decide)
  ⟨(h.1 0 (by decide) (by decide)).1,
   (h.1 0 (by decide) (by decide)).2.1,
   (h.1 0 (by decide) (by decide)).2.2.2,
   (h.2 1 (by decide) (by decide)).1,
   (h.2 1 (by decide) (by decide)).2.2.2 ((20, 2), 1) rfl⟩

theorem firstTrueIdx_some (v : List Bool) (j : Nat)
    (h : firstTrueIdx v = some j) :
    j < v.length ∧ v.getD j false = true ∧
    ∀ k, k < j → v.getD k false = false := by
  induction v generalizing j with
  | nil => simp [firstTrueIdx] at h
  | cons b rest ih =>
    by_cases hb : b = true
    · subst hb
      simp [firstTrueIdx] at h
      subst h
      exact ⟨Nat.succ_pos _, rfl, fun k hk => absurd hk (Nat.not_lt_zero k)⟩
    · have hb' : b = false := by
        cases b
        · rfl
        · exact absurd rfl hb
      subst hb'
      simp only [firstTrueIdx, Bool.false_eq_true, if_false,
        Option.map_eq_some'] at h
      obtain ⟨j', hj', hjj⟩ := h
      subst hjj
      have IH := ih j' hj'
      refine ⟨Nat.succ_lt_succ IH.1, IH.2.1, fun k hk => ?_⟩
      cases k with
      | zero => rfl
      | succ m => exact IH.2.2 m (Nat.lt_of_succ_lt_succ hk)

theorem firstTrueIdx_none (v : List Bool) (h : firstTrueIdx v = none) :
    ∀ i, i < v.length → v.getD i false = false := by
  induction v with
  | nil => intro i hi; simp at hi
  | cons b rest ih =>
    by_cases hb : b = true
    · subst hb
      simp [firstTrueIdx] at h
    · have hb' : b = false := by
        cases b
        · rfl
        · exact absurd rfl hb
      subst hb'
      simp only [firstTrueIdx, Bool.false_eq_true, if_false,
        Option.map_eq_none'] at h
      intro i hi
      cases i with
      | zero => rfl
      | succ m => exact ih h m (Nat.lt_of_succ_lt_succ hi)

theorem vacateSlots_queues (l : List Nat) (st : SrvState) :
    (vacateSlots l st).queues = st.queues := by
  induction l generalizing st with
  | nil => rfl
  | cons j rest ih =>
    exact (ih (vacateOne st j)).trans (vacateOne_queues st j)

theorem vacateSlots_dict_subset (l : List Nat) (st : SrvState)
    {p : Addr × Nat} (hp : p ∈ (vacateSlots l st).dict) : p ∈ st.dict := by
  induction l generalizing st with
  | nil => exact hp
  | cons j rest ih =>
    exact vacateOne_dict_subset st j (ih (vacateOne st j) hp)

theorem admissionScan_inv {peers : Nat} {st : SrvState}
    (hinv : SrvInv peers st) : SrvInv peers (admissionScan peers st) := by
  unfold admissionScan
  split
  · exact hinv
  · exact (vacateSlots_spec peers (List.range peers) st hinv
      (List.nodup_range peers) (fun i hi => List.mem_range.mp hi)).1

theorem admissionScan_queues (peers : Nat) (st : SrvState) :
    (admissionScan peers st).queues = st.queues := by
  unfold admissionScan
  split
  · rfl
  · exact vacateSlots_queues (List.range peers) st

theorem admissionScan_dict_subset (peers : Nat) (st : SrvState)
    {p : Addr × Nat} (hp : p ∈ (admissionScan peers st).dict) :
    p ∈ st.dict := by
  unfold admissionScan at hp
  split at hp
  · exact hp
  · exact vacateSlots_dict_subset (List.range peers) st hp

theorem dictGet_none {d : List (Addr × Nat)} {a : Addr}
    (h : dictGet d a = none) : ∀ p ∈ d, p.1 ≠ a := by
  intro p hp hpa
  unfold dictGet at h
  rw [Option.map_eq_none'] at h
  have := List.find?_eq_none.mp h p hp
  simp [hpa] at this

theorem server_packet_new_dict {peers : Nat} {st : SrvState}
    {idata : Payload} {iaddr : Addr} {qi : Nat}
    (hd : dictGet st.dict iaddr = none)
    (hfi : firstTrueIdx (admissionScan peers st).vacancy = some qi) :
    (wookiee_server_worker_packet peers st idata iaddr).dict
      = (admissionScan peers st).dict ++ [(iaddr, qi)] := by
  simp only [wookiee_server_worker_packet, hd, hfi, enqueuePacket, setView]
  split <;> rfl

theorem server_packet_new_vacancy {peers : Nat} {st : SrvState}
    {idata : Payload} {iaddr : Addr} {qi : Nat}
    (hd : dictGet st.dict iaddr = none)
    (hfi : firstTrueIdx (admissionScan peers st).vacancy = some qi) :
    (wookiee_server_worker_packet peers st idata iaddr).vacancy
      = (admissionScan peers st).vacancy.set qi false := by
  simp only [wookiee_server_worker_packet, hd, hfi, enqueuePacket, setView]
  split <;> rfl

theorem server_packet_new_viewAddr {peers : Nat} {st : SrvState}
    {idata : Payload} {iaddr : Addr} {qi : Nat}
    (hd : dictGet st.dict iaddr = none)
    (hfi : firstTrueIdx (admissionScan peers st).vacancy = some qi) :
    (wookiee_server_worker_packet peers st idata iaddr).viewAddr
      = (admissionScan peers st).viewAddr.set qi iaddr.1 := by
  simp only [wookiee_server_worker_packet, hd, hfi, enqueuePacket, setView]
  split <;> rfl

theorem server_packet_new_viewPort {peers : Nat} {st : SrvState}
    {idata : Payload} {iaddr : Addr} {qi : Nat}
    (hd : dictGet st.dict iaddr = none)
    (hfi : firstTrueIdx (admissionScan peers st).vacancy = some qi) :
    (wookiee_server_worker_packet peers st idata iaddr).viewPort
      = (admissionScan peers st).viewPort.set qi iaddr.2 := by
  simp only [wookiee_server_worker_packet, hd, hfi, enqueuePacket, setView]
  split <;> rfl

theorem server_packet_new_events {peers : Nat} {st : SrvState}
    {idata : Payload} {iaddr : Addr} {qi : Nat}
    (hd : dictGet st.dict iaddr = none)
    (hfi : firstTrueIdx (admissionScan peers st).vacancy = some qi) :
    (wookiee_server_worker_packet peers st idata iaddr).events
      = (admissionScan peers st).events.set qi true := by
  simp only [wookiee_server_worker_packet, hd, hfi, enqueuePacket, setView]
  split <;> rfl

theorem server_packet_new_queues {peers : Nat} {st : SrvState}
    {idata : Payload} {iaddr : Addr} {qi : Nat}
    (hd : dictGet st.dict iaddr = none)
    (hfi : firstTrueIdx (admissionScan peers st).vacancy = some qi) :
    (wookiee_server_worker_packet peers st idata iaddr).queues
      = (admissionScan peers st).queues.set qi
          ((admissionScan peers st).queues.getD qi [] ++ [idata]) := by
  simp only [wookiee_server_worker_packet, hd, hfi, enqueuePacket, setView]
  split <;> rfl

theorem server_packet_drop {peers : Nat} {st : SrvState}
    {idata : Payload} {iaddr : Addr}
    (hd : dictGet st.dict iaddr = none)
    (hfi : firstTrueIdx (admissionScan peers st).vacancy = none) :
    wookiee_server_worker_packet peers st idata iaddr
      = admissionScan peers st := by
  simp only [wookiee_server_worker_packet, hd, hfi]

/-- Handling one datagram preserves the consistency invariant. -/
theorem server_packet_inv {peers : Nat} {st : SrvState}
    (idata : Payload) (iaddr : Addr) (hinv : SrvInv peers st)
    (ha : iaddr ≠ (0, 0)) :
    SrvInv peers (wookiee_server_worker_packet peers st idata iaddr) := by
  cases hd : dictGet st.dict iaddr with
  | some qi =>
    obtain ⟨hvl, hal, hpl, hel, hql, hnd, hent, hocc, hvac⟩ := hinv
    simp only [wookiee_server_worker_packet, hd, enqueuePacket]
    refine ⟨hvl, hal, hpl, ?_, ?_, hnd, hent, hocc, hvac⟩
    · show (st.events.set qi true).length = peers
      rw [List.length_set]; exact hel
    · show (st.queues.set qi _).length = peers
      rw [List.length_set]; exact hql
  | none =>
    cases hfi : firstTrueIdx (admissionScan peers st).vacancy with
    | none =>
      rw [server_packet_drop hd hfi]
      exact admissionScan_inv hinv
    | some qi =>
      have hinv1 := admissionScan_inv hinv
      have hinv1' := hinv1
      obtain ⟨hvl, hal, hpl, hel, hql, hnd, hent, hocc, hvac⟩ := hinv1'
      have hfis := firstTrueIdx_some _ _ hfi
      have hqi : qi < peers := hvl ▸ hfis.1
      have hvq : (admissionScan peers st).vacancy.getD qi true = true :=
        (getD_default_irrel _ qi true false hfis.1).trans hfis.2.1
      have hnotin : ∀ p ∈ (admissionScan peers st).dict, p.1 ≠ iaddr :=
        fun p hp => dictGet_none hd p (admissionScan_dict_subset peers st hp)
      refine ⟨?_, ?_, ?_, ?_, ?_, ?_, ?_, ?_, ?_⟩
      · rw [server_packet_new_vacancy hd hfi, List.length_set]; exact hvl
      · rw [server_packet_new_viewAddr hd hfi, List.length_set]; exact hal
      · rw [server_packet_new_viewPort hd hfi, List.length_set]; exact hpl
      · rw [server_packet_new_events hd hfi, List.length_set]; exact hel
      · rw [server_packet_new_queues hd hfi, List.length_set]; exact hql
      · rw [server_packet_new_dict hd hfi, List.map_append]
        refine hnd.append (List.nodup_singleton _) ?_
        intro a ha1 ha2
        simp only [List.map_cons, List.map_nil, List.mem_singleton] at ha2
        obtain ⟨p, hp, hpa⟩ := List.mem_map.mp ha1
        exact hnotin p hp (hpa.trans ha2)
      · intro p hp
        rw [server_packet_new_dict hd hfi] at hp
        rcases List.mem_append.mp hp with hp1 | hp1
        · obtain ⟨hlt, hvf, hva, hvp, hnz⟩ := hent p hp1
          have hpq : p.2 ≠ qi := by
            intro he
            rw [he] at hvf
            exact Bool.noConfusion (hvq.symm.trans hvf)
          refine ⟨hlt, ?_, ?_, ?_, hnz⟩
          · rw [server_packet_new_vacancy hd hfi,
              getD_set_ne _ qi p.2 _ _ (fun h => hpq h.symm)]
            exact hvf
          · rw [server_packet_new_viewAddr hd hfi,
              getD_set_ne _ qi p.2 _ _ (fun h => hpq h.symm)]
            exact hva
          · rw [server_packet_new_viewPort hd hfi,
              getD_set_ne _ qi p.2 _ _ (fun h => hpq h.symm)]
            exact hvp
        · rw [List.mem_singleton] at hp1
          subst hp1
          refine ⟨hqi, ?_, ?_, ?_, ha⟩
          · rw [server_packet_new_vacancy hd hfi]
            exact getD_set_self _ qi _ _ (by rw [hvl]; exact hqi)
          · rw [server_packet_new_viewAddr hd hfi]
            exact getD_set_self _ qi _ _ (by rw [hal]; exact hqi)
          · rw [server_packet_new_viewPort hd hfi]
            exact getD_set_self _ qi _ _ (by rw [hpl]; exact hqi)
      · intro i hi hvi
        rw [server_packet_new_vacancy hd hfi] at hvi
        rw [server_packet_new_dict hd hfi]
        by_cases hiq : i = qi
        · subst hiq
          exact ⟨(iaddr, i), List.mem_append_right _ (List.mem_singleton.mpr rfl),
            rfl⟩
        · rw [getD_set_ne _ qi i _ _ (fun h => hiq h.symm)] at hvi
          obtain ⟨p, hp, hp2⟩ := hocc i hi hvi
          exact ⟨p, List.mem_append_left _ hp, hp2⟩
      · intro i hi hvi
        rw [server_packet_new_vacancy hd hfi] at hvi
        by_cases hiq : i = qi
        · subst hiq
          rw [getD_set_self _ i _ _ (by rw [hvl]; exact hi)] at hvi
          cases hvi
        · rw [getD_set_ne _ qi i _ _ (fun h => hiq h.symm)] at hvi
          obtain ⟨hz1, hz2⟩ := hvac i hi hvi
          constructor
          · rw [server_packet_new_viewAddr hd hfi,
              getD_set_ne _ qi i _ _ (fun h => hiq h.symm)]
            exact hz1
          · rw [server_packet_new_viewPort hd hfi,
              getD_set_ne _ qi i _ _ (fun h => hiq h.symm)]
            exact hz2

theorem server_timeout_inv {peers : Nat} {st : SrvState}
    (hinv : SrvInv peers st) :
    SrvInv peers (wookiee_server_worker_timeout peers st) := by
  obtain ⟨hvl, hal, hpl, hel, hql, hnd, hent, hocc, hvac⟩ := hinv
  unfold wookiee_server_worker_timeout
  split
  · exact ⟨hvl, hal, hpl, hel, hql, hnd, hent, hocc, hvac⟩
  · refine ⟨?_, ?_, ?_, hel, hql, List.nodup_nil, ?_, ?_, ?_⟩
    · exact List.length_replicate peers true
    · exact List.length_replicate peers 0
    · exact List.length_replicate peers 0
    · intro p hp
      cases hp
    · intro i hi hvi
      rw [getD_replicate_self peers i true true hi] at hvi
      cases hvi
    · intro i hi _
      exact ⟨getD_replicate_self peers i 0 0 hi,
        getD_replicate_self peers i 0 0 hi⟩

theorem srvInit_inv (peers : Nat) : SrvInv peers (srvInit peers) := by
  refine ⟨?_, ?_, ?_, ?_, ?_, List.nodup_nil, ?_, ?_, ?_⟩
  · exact List.length_replicate peers true
  · exact List.length_replicate peers 0
  · exact List.length_replicate peers 0
  · exact List.length_replicate peers false
  · exact List.length_replicate peers []
  · intro p hp
    cases hp
  · intro i hi hvi
    replace hvi : (List.replicate peers true).getD i true = false := hvi
    rw [getD_replicate_self peers i true true hi] at hvi
    cases hvi
  · intro i hi _
    exact ⟨getD_replicate_self peers i 0 0 hi,
      getD_replicate_self peers i 0 0 hi⟩

theorem srvStep_inv {peers : Nat} {st : SrvState} (e : SrvEvent)
    (hok : srvEventOK e) (hinv : SrvInv peers st) :
    SrvInv peers (srvStep peers st e) := by
  obtain ⟨hvl, hal, hpl, hel, hql, hnd, hent, hocc, hvac⟩ := hinv
  cases e with
  | recv idata iaddr =>
    exact server_packet_inv idata iaddr
      ⟨hvl, hal, hpl, hel, hql, hnd, hent, hocc, hvac⟩ hok
  | timeout =>
    exact server_timeout_inv ⟨hvl, hal, hpl, hel, hql, hnd, hent, hocc, hvac⟩
  | clearEvent i =>
    refine ⟨hvl, hal, hpl, ?_, hql, hnd, hent, hocc, hvac⟩
    show (st.events.set i false).length = peers
    rw [List.length_set]; exact hel

/-- Every reachable admission state is consistent. -/
theorem srvReach_inv {peers : Nat} {st : SrvState} (h : SrvReach peers st) :
    SrvInv peers st := by
  induction h with
  | init => exact srvInit_inv peers
  | step e _ hok ih => exact srvStep_inv e hok ih

/-- In a consistent state the dict maps at most one address per slot, so
the number of admitted peers is bounded by the slot count. -/
theorem inv_dict_length {peers : Nat} {st : SrvState}
    (hinv : SrvInv peers st) : st.dict.length ≤ peers := by
  have hinv' := hinv
  obtain ⟨-, -, -, -, -, hnd, hent, -, -⟩ := hinv'
  have hpair : st.dict.Pairwise (fun p q => p.1 ≠ q.1) :=
    List.pairwise_map.mp hnd
  have hsnd : (st.dict.map Prod.snd).Nodup := by
    refine List.pairwise_map.mpr (hpair.imp_of_mem ?_)
    intro p q hp hq hne he
    exact hne (by rw [inv_entry_key hinv hp, inv_entry_key hinv hq, he])
  have hlt : ∀ x ∈ st.dict.map Prod.snd, x < peers := by
    intro x hx
    obtain ⟨p, hp, hpx⟩ := List.mem_map.mp hx
    exact hpx ▸ (hent p hp).1
  calc st.dict.length = (st.dict.map Prod.snd).length :=
        (List.length_map _ _).symm
    _ = (st.dict.map Prod.snd).toFinset.card :=
        (List.toFinset_card_of_nodup hsnd).symm
    _ ≤ (Finset.range peers).card := by
        refine Finset.card_le_card ?_
        intro x hx
        exact Finset.mem_range.mpr (hlt x (List.mem_toFinset.mp hx))
    _ = peers := Finset.card_range peers

/-- C5.  When the admission worker receives a datagram from an address
with no slot mapping: if the (post-scan) vacancy vector has a vacant
slot, the lowest-indexed vacant slot `qi` is chosen, the forward mapping
`(iaddr, qi)` is appended to the dict, the reverse entries are written,
the slot is marked non-vacant, its remote-peer event is set, and the
payload is appended to the slot's queue; if no slot is vacant, the state
is left exactly as the scan produced it — the datagram is dropped, the
queues in particular staying what they were before the datagram arrived;
and in every reachable state the number of admitted peers (dict entries)
never exceeds the configured peer count. -/
theorem server_admission_new_peer (peers : Nat) (st : SrvState)
    (idata : Payload) (iaddr : Addr) (hinv : SrvInv peers st)
    (hnew : dictGet st.dict iaddr = none) :
    (∀ qi, firstTrueIdx (admissionScan peers st).vacancy = some qi →
      ((admissionScan peers st).vacancy.getD qi true = true ∧
        ∀ k, k < qi → (admissionScan peers st).vacancy.getD k true = false) ∧
      (wookiee_server_worker_packet peers st idata iaddr).dict
        = (admissionScan peers st).dict ++ [(iaddr, qi)] ∧
      (wookiee_server_worker_packet peers st idata iaddr).viewAddr.getD qi 0
        = iaddr.1 ∧
      (wookiee_server_worker_packet peers st idata iaddr).viewPort.getD qi 0
        = iaddr.2 ∧
      (wookiee_server_worker_packet peers st idata iaddr).vacancy.getD qi true
        = false ∧
      (wookiee_server_worker_packet peers st idata iaddr).events.getD qi false
        = true ∧
      (wookiee_server_worker_packet peers st idata iaddr).queues.getD qi []
        = st.queues.getD qi [] ++ [idata]) ∧
    (firstTrueIdx (admissionScan peers st).vacancy = none →
      wookiee_server_worker_packet peers st idata iaddr
        = admissionScan peers st ∧
      (wookiee_server_worker_packet peers st idata iaddr).queues
        = st.queues) ∧
    (∀ st' : SrvState, SrvReach peers st' → st'.dict.length ≤ peers) := by
  have hinv1 := admissionScan_inv hinv
  obtain ⟨hvl, hal, hpl, hel, hql, -, -, -, -⟩ := hinv1
  refine ⟨?_, ?_, fun st' hr => inv_dict_length (srvReach_inv hr)⟩
  · intro qi hfi
    have hfis := firstTrueIdx_some _ _ hfi
    have hqi : qi < peers := hvl ▸ hfis.1
    refine ⟨⟨(getD_default_irrel _ qi true false hfis.1).trans hfis.2.1,
        fun k hk => (getD_default_irrel _ k true false
          (Nat.lt_trans hk hfis.1)).trans (hfis.2.2 k hk)⟩,
      server_packet_new_dict hnew hfi, ?_, ?_, ?_, ?_, ?_⟩
    · rw [server_packet_new_viewAddr hnew hfi]
      exact getD_set_self _ qi _ _ (by rw [hal]; exact hqi)
    · rw [server_packet_new_viewPort hnew hfi]
      exact getD_set_self _ qi _ _ (by rw [hpl]; exact hqi)
    · rw [server_packet_new_vacancy hnew hfi]
      exact getD_set_self _ qi _ _ (by rw [hvl]; exact hqi)
    · rw [server_packet_new_events hnew hfi]
      exact getD_set_self _ qi _ _ (by rw [hel]; exact hqi)
    · rw [server_packet_new_queues hnew hfi, admissionScan_queues]
      exact getD_set_self _ qi _ _
        (by rw [admissionScan_queues] at hql; rw [hql]; exact hqi)
  · intro hfi
    refine ⟨server_packet_drop hnew hfi, ?_⟩
    rw [server_packet_drop hnew hfi]
    exact admissionScan_queues peers st

/-- Witness for C5 on `c5State`: the new peer `(30, 3)` is admitted into
the lowest vacant slot 1, and the initial state's dict respects the
capacity bound. -/
theorem server_admission_new_peer_witness :
    (wookiee_server_worker_packet 2 c5State [9] (30, 3)).dict
      = (admissionScan 2 c5State).dict ++ [((30, 3), 1)] ∧
    (wookiee_server_worker_packet 2 c5State [9] (30, 3)).vacancy.getD 1 true
      = false ∧
    (wookiee_server_worker_packet 2 c5State [9] (30, 3)).queues.getD 1 []
      = c5State.queues.getD 1 [] ++ [[9]] ∧
    (srvInit 2).dict.length ≤ 2 :=
  have h := server_admission_new_peer 2 c5State [9] (30, 3) (by decide)
    (by decide)
  ⟨(h.1 1 (by decide)).2.1,
   (h.1 1 (by decide)).2.2.2.2.1,
   (h.1 1 (by decide)).2.2.2.2.2.2,
   h.2.2 (srvInit 2) SrvReach.init⟩
